import Mathlib

/-!
# gmsv_query: query interception pipeline (`source/netfilter/core.cpp`)

A shallow embedding of the packet classifier, the two reply encoders, the
reply cache, the script hook bridge and the packet queue of
`source/netfilter/core.cpp`, followed by theorems about them.

Conventions of the embedding:

* a byte (`uint8_t`, `char`) is a `Fin 256`;
* a `std::string` is the list of its bytes; a `const char *` is the list of
  bytes it points at, read up to the first NUL (`cstr`);
* `int32_t` fields are `Int`, `uint32_t`/`uint64_t` are `Nat`; every place
  where the code narrows a value reduces it modulo the width explicitly;
* global variables of the translation unit are fields of `State`, and every
  `sendto` appends to the `sent` log of the state.
-/

namespace netfilter

/-- One octet. -/
abbrev Byte := Fin 256

/-- The low eight bits of a natural number. -/
def byteOf (n : Nat) : Byte := ⟨n % 256, Nat.mod_lt n (by decide)⟩

/-- The two's complement bit pattern of `x` in `bits` bits. -/
def toUnsigned (bits : Nat) (x : Int) : Nat := (x % (2 : Int) ^ bits).toNat

/-- The signed reading of a `bits`-bit pattern. -/
def toSigned (bits : Nat) (u : Nat) : Int :=
  if u % 2 ^ bits < 2 ^ (bits - 1) then (u % 2 ^ bits : Nat) else (u % 2 ^ bits : Nat) - (2 : Int) ^ bits

/-- The `k` low bytes of `v`, least significant first. -/
def leBytes : Nat → Nat → List Byte
  | 0, _ => []
  | k + 1, v => byteOf v :: leBytes k (v / 256)

/-- The value `nValue` that `bf_write::WriteSBitLong( data, numbits )` passes on to
`WriteUBitLong`, for `1 ≤ numbits ≤ 32`:
`nPreserveBits = 0x7FFFFFFF >> ( 32 - numbits )`,
`nSignExtension = ( data >> 31 ) & ~nPreserveBits` and
`nValue = ( data & nPreserveBits ) | nSignExtension`, on the bit pattern of the `int`.
The mask is `2 ^ (numbits - 1) - 1`, so the conjunction with it is a remainder, and the two
parts of the disjunction have no bit in common, so it is a sum. -/
def signedField (numbits : Nat) (data : Int) : Nat :=
  let nPreserveBits := 0x7FFFFFFF / 2 ^ (32 - numbits)
  let nSignExtension := if 2 ^ 31 ≤ toUnsigned 32 data then 0xFFFFFFFF - nPreserveBits else 0
  toUnsigned 32 data % (nPreserveBits + 1) + nSignExtension

/-- The conversion of a `char` to `int`; `char` is signed on the platforms of this module. -/
def charToInt (c : Byte) : Int := if c.val < 128 then (c.val : Int) else (c.val : Int) - 256

/-- The value of a little-endian byte list. -/
def leValue : List Byte → Nat
  | [] => 0
  | b :: bs => b.val + 256 * leValue bs

/-- The bytes a `const char *` designates: everything before the first NUL. -/
def cstr (s : List Byte) : List Byte := s.takeWhile (fun b => b != 0)

/-- A string without an embedded NUL, which is what every `std::string` assigned from a
`const char *` holds. -/
def NulFree (s : List Byte) : Prop := (0 : Byte) ∉ s

instance (s : List Byte) : Decidable (NulFree s) :=
  inferInstanceAs (Decidable ((0 : Byte) ∉ s))

/-! ## `bf_write` (Source SDK `bitbuf.h`)

The encoders only ever write whole bytes, so the cursor `m_iCurBit` is always a
multiple of eight. The buffer `m_pData` is kept split at the cursor:
`written` is `m_pData[0 .. m_iCurBit/8)` and `rest` is what lies behind the
cursor, so `m_nDataBytes = written.length + rest.length`,
`GetNumBytesWritten() = written.length` and `GetData()` is `written ++ rest`.
-/

/-- The SDK bit writer over a fixed buffer, restricted to byte-aligned writes. -/
structure bf_write where
  written : List Byte
  rest : List Byte
  overflow : Bool
deriving DecidableEq

namespace bf_write

/-- A writer over a zeroed buffer of `n` bytes (`char buf[n] = { 0 }`). -/
def init (n : Nat) : bf_write := ⟨[], List.replicate n 0, false⟩

/-- The capacity `m_nDataBytes`. -/
def capacity (w : bf_write) : Nat := w.written.length + w.rest.length

/-- Method `bf_write::Reset`: the cursor goes back to the start, the buffer keeps its bytes. -/
def Reset (w : bf_write) : bf_write := ⟨[], w.written ++ w.rest, false⟩

/-- The core of `bf_write::WriteUBitLong` for a whole number of bytes `bs`: when fewer
bits are left than asked for, the cursor jumps to the end of the buffer and the
overflow flag is set; otherwise the bytes overwrite the buffer at the cursor. -/
def writeBytes (w : bf_write) (bs : List Byte) : bf_write :=
  if w.rest.length < bs.length then ⟨w.written ++ w.rest, [], true⟩
  else ⟨w.written ++ bs, w.rest.drop bs.length, w.overflow⟩

/-- Method `bf_write::WriteUBitLong( curData, numbits )` with `numbits` a multiple of 8. -/
def WriteUBitLong (w : bf_write) (curData : Nat) (numbits : Nat) : bf_write :=
  w.writeBytes (leBytes (numbits / 8) curData)

/-- Method `bf_write::WriteSBitLong( data, numbits )`: the sign bit of the `int` is forced
into the top bit of the field, also when `data` does not fit in `numbits` bits. -/
def WriteSBitLong (w : bf_write) (data : Int) (numbits : Nat) : bf_write :=
  w.WriteUBitLong (signedField numbits data) numbits

/-- Method `bf_write::WriteByte( int val )`. -/
def WriteByte (w : bf_write) (val : Int) : bf_write := w.WriteUBitLong (toUnsigned 32 val) 8

/-- Method `bf_write::WriteChar( int val )`. -/
def WriteChar (w : bf_write) (val : Int) : bf_write := w.WriteSBitLong val 8

/-- Method `bf_write::WriteShort( int val )`. -/
def WriteShort (w : bf_write) (val : Int) : bf_write := w.WriteSBitLong val 16

/-- Method `bf_write::WriteLong( long val )`. -/
def WriteLong (w : bf_write) (val : Int) : bf_write := w.WriteSBitLong val 32

/-- Method `bf_write::WriteLongLong( int64 val )`: the low dword, then the high dword. -/
def WriteLongLong (w : bf_write) (val : Int) : bf_write :=
  let u := toUnsigned 64 val
  (w.WriteUBitLong (u % 2 ^ 32) 32).WriteUBitLong (u / 2 ^ 32) 32

/-- Method `bf_write::WriteString( const char *pStr )`: `WriteChar` for every character up to
and including the terminator. -/
def WriteString (w : bf_write) (pStr : List Byte) : bf_write :=
  (cstr pStr ++ [0]).foldl (fun (acc : bf_write) (c : Byte) => acc.WriteChar (charToInt c)) w

/-- Method `bf_write::WriteBits( pIn, nBits )` for a whole number of bytes: on overrun only the
overflow flag is set, the cursor stays. -/
def WriteBits (w : bf_write) (bs : List Byte) : bf_write :=
  if w.rest.length < bs.length then { w with overflow := true }
  else ⟨w.written ++ bs, w.rest.drop bs.length, w.overflow⟩

/-- Method `bf_write::WriteFloat( float val )`, given the IEEE-754 single bit pattern of `val`. -/
def WriteFloat (w : bf_write) (bits : Nat) : bf_write := w.WriteBits (leBytes 4 bits)

/-- The effect of a write that fits: the bytes land at the cursor. -/
def emit (w : bf_write) (bs : List Byte) : bf_write :=
  ⟨w.written ++ bs, w.rest.drop bs.length, w.overflow⟩

end bf_write

/-! ## Data model -/

/-- The struct `reply_info_t`. -/
structure reply_info_t where
  dontsend : Bool
  game_name : List Byte
  map_name : List Byte
  game_dir : List Byte
  gamemode_name : List Byte
  amt_clients : Int
  max_clients : Int
  amt_bots : Int
  server_type : Byte
  os_type : Byte
  passworded : Bool
  secure : Bool
  game_version : List Byte
  udp_port : Int
  tags : List Byte
  appid : Int
  steamid : Nat
deriving DecidableEq

/-- The enumeration `PacketType`. -/
inductive PacketType where
  | Invalid
  | Good
  | Info
  | Player
deriving DecidableEq

/-- The constant `default_proto_version`. -/
def default_proto_version : Nat := 17

/-- The read `*reinterpret_cast<const int32_t *>( data )` on a little-endian host. -/
def readInt32LE (data : List Byte) : Int :=
  toSigned 32 ((data.getD 0 0).val + 256 * (data.getD 1 0).val
    + 65536 * (data.getD 2 0).val + 16777216 * (data.getD 3 0).val)

/-- Function `ClassifyPacket( data, len, from )`; `from` only feeds the debug log. -/
def ClassifyPacket (data : List Byte) (len : Int) : PacketType :=
  if len = 0 then PacketType.Invalid
  else if len < 5 then PacketType.Good
  else
    let channel := readInt32LE data
    if channel = -2 then PacketType.Invalid
    else if channel ≠ -1 then PacketType.Good
    else
      let type := data.getD 4 0
      if type = 85 then PacketType.Player
      else if type = 84 then PacketType.Info else PacketType.Good

/-- Function `BuildReplyInfoPacket( info )` acting on `info_cache_packet`. -/
def BuildReplyInfoPacket (info : reply_info_t) (info_cache_packet : bf_write) : bf_write :=
  let p := info_cache_packet.Reset
  let p := p.WriteLong (-1)
  let p := p.WriteByte 73
  let p := p.WriteByte default_proto_version
  let p := p.WriteString info.game_name
  let p := p.WriteString info.map_name
  let p := p.WriteString info.game_dir
  let p := p.WriteString info.gamemode_name
  let p := p.WriteShort info.appid
  let p := p.WriteByte info.amt_clients
  let p := p.WriteByte info.max_clients
  let p := p.WriteByte info.amt_bots
  let p := p.WriteByte info.server_type.val
  let p := p.WriteByte info.os_type.val
  let p := p.WriteByte (if info.passworded then 1 else 0)
  let p := p.WriteByte (if info.secure then 1 else 0)
  let p := p.WriteString info.game_version
  let notags := info.tags.isEmpty
  let p := p.WriteByte (0x80 ||| 0x10 ||| (if notags then 0x00 else 0x20) ||| 0x01 : Nat)
  let p := p.WriteShort info.udp_port
  let p := p.WriteLongLong info.steamid
  let p := if !notags then p.WriteString info.tags else p
  p.WriteLongLong info.appid

/-- A `sockaddr_in` as the 16 bytes it occupies in memory: family (2), port (2),
`sin_addr.s_addr` (4), padding (8). -/
abbrev sockaddr_in := List Byte

/-- The field `sin_addr.s_addr` of an address, as the host reads the `uint32_t`. -/
def s_addr (a : sockaddr_in) : Nat := leValue ((a.drop 4).take 4)

/-- The struct `packet_t`. -/
structure packet_t where
  address : sockaddr_in
  address_size : Nat
  buffer : List Byte
deriving DecidableEq

/-- The constant `threaded_socket_max_buffer`. -/
def threaded_socket_max_buffer : Nat := 8192

/-- The constant `threaded_socket_max_queue`. -/
def threaded_socket_max_queue : Nat := 1000

/-- The constant `default_game_version`, "2019.11.12". -/
def default_game_version : List Byte := [50, 48, 49, 57, 46, 49, 49, 46, 49, 50]

/-- The constant `operating_system_char` of the `SYSTEM_POSIX` build, `'l'`. -/
def operating_system_char : Byte := 108

/-! ## Numbers of the scripting runtime

Lua numbers are C `double`s. The embedding keeps the type of doubles abstract and takes
the conversions the code applies to them as data. -/

/-- The conversions on `double` values that the code relies on. -/
structure NumOps (D : Type) where
  /-- The double `0.0`, which `lua_tonumber` yields for a value that is no number. -/
  zero : D
  /-- The C++ conversion of a double to `int32_t` / `long`. -/
  toInt32 : D → Int
  /-- The bit pattern of the double converted to an IEEE-754 single. -/
  toFloatBits : D → Nat
  /-- The coercion of a Lua string to a number (`0.0` when it is not numeric). -/
  ofString : List Byte → D
  /-- The coercion of a Lua number to a string. -/
  toString : D → List Byte
  /-- Converting `0.0` gives 0. -/
  toInt32_zero : toInt32 zero = 0

/-- The position of the highest set bit of `m`, by halving at most `fuel` times. -/
def ilog2 : Nat → Nat → Nat
  | 0, _ => 0
  | fuel + 1, m => if m < 2 then 0 else ilog2 fuel (m / 2) + 1

/-- A stand-in for doubles that hold small integers: the conversion to `int32_t` is the
identity on the `int32_t` range, and the single-precision pattern is exact below `2^24`. -/
def intOps : NumOps Int where
  zero := 0
  toInt32 := fun d => if -2147483648 ≤ d ∧ d < 2147483648 then d else -2147483648
  toFloatBits := fun d =>
    if d = 0 then 0
    else
      let m := d.natAbs
      let e := ilog2 m m
      (if d < 0 then 2147483648 else 0) + (127 + e) * 8388608 + (m * 2 ^ (23 - e) / 2 ^ (e - 23)) % 8388608
  ofString := fun _ => 0
  toString := fun _ => []
  toInt32_zero := by decide

/-- A value on the Lua stack, as far as the C API calls of the code can tell values
apart. -/
inductive LuaValue (D : Type) where
  | nil
  | boolean (b : Bool)
  | number (d : D)
  | string (s : List Byte)
  | other

/-- The call `lua->GetString( -1 )` (`lua_tolstring`): the bytes of a string, the rendering
of a number, and `NULL` (here `none`) for anything else. -/
def GetString {D : Type} (ops : NumOps D) : LuaValue D → Option (List Byte)
  | LuaValue.string s => some s
  | LuaValue.number d => some (ops.toString d)
  | _ => none

/-- The call `lua->GetNumber( -1 )` (`lua_tonumber`). -/
def GetNumber {D : Type} (ops : NumOps D) : LuaValue D → D
  | LuaValue.number d => d
  | LuaValue.string s => ops.ofString s
  | _ => ops.zero

/-- The call `lua->GetBool( -1 )` (`lua_toboolean`). -/
def GetBool {D : Type} : LuaValue D → Bool
  | LuaValue.nil => false
  | LuaValue.boolean b => b
  | _ => true

/-- The keys `CallInfoHook` reads from a returned table. -/
inductive InfoField where
  | name | map | folder | gamemode | players | maxplayers | bots
  | servertype | os | passworded | VAC | gameport | steamid | tags
deriving DecidableEq

/-- The keys `CallPlayerHook` reads from an entry of a returned table. -/
inductive PlayerField where
  | name | score | time
deriving DecidableEq

/-- A Lua table seen through `GetField`: an absent key reads as `nil`. -/
abbrev LuaTable (K D : Type) := K → LuaValue D

/-- What `CallFunctionProtected( 4, 1, true )` leaves on the stack, as far as
`IsType( -1, BOOL )` and `IsType( -1, TABLE )` tell it apart. -/
inductive LuaReturn (T : Type) where
  | boolean (b : Bool)
  | table (t : T)
  | other

/-- The Lua side at the time of one call of the bridge: whether the global `hook` is a
table, whether `hook.Run` is a function, and what `hook.Run` returns for the two hook
names, given the requester and the default reply it is handed. -/
structure Lua (D : Type) where
  hook_is_table : Bool
  run_is_function : Bool
  run_info : sockaddr_in → reply_info_t → LuaReturn (LuaTable InfoField D)
  run_player : sockaddr_in → LuaReturn (List (LuaTable PlayerField D))

/-- Predicate `isspace` of the C locale. -/
def isspace (b : Byte) : Bool := b.val = 32 || (9 ≤ b.val && b.val ≤ 13)

/-- Predicate `isdigit`. -/
def isdigit (b : Byte) : Bool := 48 ≤ b.val && b.val ≤ 57

/-- The call `strtoll( s, 0, 10 )`: leading white space, an optional sign, decimal digits;
the result saturates at the `long long` range. -/
def strtoll (s : List Byte) : Int :=
  let s := s.dropWhile isspace
  let signed : Bool × List Byte :=
    match s with
    | 45 :: t => (true, t)
    | 43 :: t => (false, t)
    | _ => (false, s)
  let v : Int := (signed.2.takeWhile isdigit).foldl (fun (acc : Int) (c : Byte) => acc * 10 + (c.val - 48 : Int)) 0
  let v := if signed.1 then -v else v
  if v < -9223372036854775808 then -9223372036854775808
  else if 9223372036854775807 < v then 9223372036854775807
  else v

/-! ## Host state -/

/-- What `BuildReplyInfo` reads from the host when it runs. -/
structure Host where
  /-- Result of `global::server->GetName( )`. -/
  server_name : List Byte
  /-- Result of `global::server->GetMapName( )`. -/
  map_name : List Byte
  /-- Result of `engine_server->GetAppID( )`. -/
  appid : Int
  /-- Result of `global::server->GetNumClients( )`. -/
  num_clients : Int
  /-- Value of `sv_visiblemaxplayers->GetInt( )`, `none` when the pointer is null. -/
  sv_visiblemaxplayers : Option Int
  /-- Result of `global::server->GetNumFakeClients( )`. -/
  num_fake_clients : Int
  /-- Result of `global::server->GetPassword( )`, `none` for `nullptr`. -/
  password : Option (List Byte)
  /-- Result of `gameserver_context.Init( )`. -/
  context_init : Bool
  /-- Result of `SteamGameServer( )->BSecure( )`, `none` when `SteamGameServer( )` is null. -/
  steam_secure : Option Bool
  /-- Result of `engine_server->GetGameServerSteamID( )` converted to 64 bits, `none` for null. -/
  steamid : Option Nat

/-- What `BuildStaticReplyInfo` reads from the host at start-up. -/
structure StaticHost where
  /-- Result of `gamedll->GetGameDescription( )`. -/
  game_description : List Byte
  /-- The 256-byte buffer after `engine_server->GetGameDir`. -/
  game_dir : List Byte
  /-- Result of `global::server->GetMaxClients( )`. -/
  max_clients : Int
  /-- Result of `global::server->GetUDPPort( )`. -/
  udp_port : Int
  /-- The name of the active gamemode. -/
  gamemode_name : List Byte
  /-- The workshop id of the active gamemode. -/
  gamemode_workshopid : Nat
  /-- The file `steam.inf`: `none` when `Open` fails; otherwise the line that `ReadLine`
  stored in the buffer (at most 255 bytes), `none` when it returned null. -/
  steam_inf : Option (Option (List Byte))

/-! ## Program state -/

/-- The mutable globals of the translation unit, with `CM` the type of the rate limiter
`ClientManager`, and three ghost fields: the log of `sendto` calls, the number of calls of
the script hook bridge, and the number of runs of `BuildReplyInfo`. -/
structure State (CM : Type) where
  info_cache_enabled : Bool
  reply_info : reply_info_t
  info_cache_packet : bf_write
  info_cache_last_update : Nat
  info_cache_time : Nat
  player_cache_packet : bf_write
  gameserver_context_initialized : Bool
  client_manager : CM
  threaded_socket_queue : List packet_t
  sent : List (sockaddr_in × List Byte)
  hook_calls : Nat
  rebuilds : Nat

/-- The statically initialised `reply_info`. -/
def reply_info_zero : reply_info_t :=
  { dontsend := false, game_name := [], map_name := [], game_dir := [], gamemode_name := [],
    amt_clients := 0, max_clients := 0, amt_bots := 0, server_type := 0, os_type := 0,
    passworded := false, secure := false, game_version := [], udp_port := 0, tags := [],
    appid := 0, steamid := 0 }

/-- The globals as their initialisers leave them. -/
def State.initial {CM : Type} (cm : CM) : State CM :=
  { info_cache_enabled := false
    reply_info := reply_info_zero
    info_cache_packet := bf_write.init 1024
    info_cache_last_update := 0
    info_cache_time := 5
    player_cache_packet := bf_write.init 1024
    gameserver_context_initialized := false
    client_manager := cm
    threaded_socket_queue := []
    sent := []
    hook_calls := 0
    rebuilds := 0 }

/-- The external inputs of one step of the program. -/
structure Env (D : Type) where
  host : Host
  lua : Lua D
  /-- The value of `Plat_FloatTime( )` in whole seconds. -/
  plat_time : Nat
  /-- The indeterminate value of the uninitialised `newreply.count` in `CallPlayerHook`. -/
  indeterminate_count : Byte

/-- The decimal digits of a number (`std::to_string`). -/
def decimal (n : Nat) : List Byte := (Nat.toDigits 10 n).map (fun c => byteOf c.toNat)

/-- The position `find_last_of( "\\/" )`, dropped together with everything before it. -/
def eraseThroughLastSlash (s : List Byte) : List Byte :=
  match (List.range s.length).reverse.find? (fun i => s.getD i 0 = 92 || s.getD i 0 = 47) with
  | some pos => s.drop (pos + 1)
  | none => s

/-- Function `BuildStaticReplyInfo( )`. -/
def BuildStaticReplyInfo (h : StaticHost) (reply_info : reply_info_t) : reply_info_t :=
  let reply_info := { reply_info with gamemode_name := cstr h.game_description }
  let reply_info := { reply_info with game_dir := eraseThroughLastSlash (cstr h.game_dir) }
  let reply_info := { reply_info with max_clients := h.max_clients }
  let reply_info := { reply_info with udp_port := h.udp_port }
  let tags : List Byte := [32, 103, 109, 58] ++ h.gamemode_name
  let tags := if h.gamemode_workshopid = 0
    then tags ++ [32, 103, 109, 119, 115, 58] ++ decimal h.gamemode_workshopid else tags
  let reply_info := { reply_info with tags := tags }
  match h.steam_inf with
  | none => { reply_info with game_version := default_game_version }
  | some none => { reply_info with game_version := default_game_version }
  | some (some line) =>
    let buff := (cstr line ++ List.replicate 256 0).take 256
    let game_version := cstr (buff.drop 13)
    { reply_info with game_version := game_version.takeWhile (fun b => b != 13 && b != 10) }

/-- Function `BuildReplyInfo( )`. -/
def BuildReplyInfo {CM : Type} (host : Host) (s : State CM) : State CM :=
  let server_name := host.server_name
  let reply_info : reply_info_t := { s.reply_info with game_name := cstr server_name }
  let map_name := host.map_name
  let reply_info : reply_info_t := { reply_info with map_name := cstr map_name }
  let game_dir := reply_info.game_dir
  let reply_info : reply_info_t := { reply_info with game_dir := cstr game_dir }
  let game_desc := reply_info.gamemode_name
  let appid : Int := host.appid
  let reply_info : reply_info_t := { reply_info with appid := appid }
  let num_clients : Int := host.num_clients
  let reply_info : reply_info_t := { reply_info with amt_clients := num_clients }
  let max_players : Int :=
    match host.sv_visiblemaxplayers with
    | some v => v
    | none => -1
  let max_players : Int :=
    if max_players ≤ 0 ∨ max_players > reply_info.max_clients then reply_info.max_clients
    else max_players
  let reply_info : reply_info_t := { reply_info with max_clients := max_players }
  let num_fake_clients : Int := host.num_fake_clients
  let reply_info : reply_info_t := { reply_info with amt_bots := num_fake_clients }
  let has_password : Bool := host.password.isSome
  let reply_info : reply_info_t := { reply_info with amt_bots := if has_password then 1 else 0 }
  let gameserver_context_initialized : Bool :=
    if !s.gameserver_context_initialized then host.context_init
    else s.gameserver_context_initialized
  let vac_secure : Bool :=
    if gameserver_context_initialized then
      match host.steam_secure with
      | some b => b
      | none => false
    else false
  let reply_info : reply_info_t := { reply_info with secure := vac_secure }
  let game_version := reply_info.game_version
  let udp_port := reply_info.udp_port
  let steamid : Nat :=
    match host.steamid with
    | some sid => sid
    | none => 0
  let reply_info : reply_info_t := { reply_info with steamid := steamid }
  let has_tags : Bool := !reply_info.tags.isEmpty
  let tags := reply_info.tags
  let p : bf_write := s.info_cache_packet.Reset
  let p : bf_write := p.WriteLong (-1)
  let p : bf_write := p.WriteByte 73
  let p : bf_write := p.WriteByte default_proto_version
  let p : bf_write := p.WriteString server_name
  let p : bf_write := p.WriteString map_name
  let p : bf_write := p.WriteString game_dir
  let p : bf_write := p.WriteString game_desc
  let p : bf_write := p.WriteShort appid
  let p : bf_write := p.WriteByte num_clients
  let p : bf_write := p.WriteByte max_players
  let p : bf_write := p.WriteByte num_fake_clients
  let p : bf_write := p.WriteByte 100
  let p : bf_write := p.WriteByte operating_system_char.val
  let p : bf_write := p.WriteByte (if has_password then 1 else 0)
  let p : bf_write := p.WriteByte (if vac_secure then 1 else 0)
  let p : bf_write := p.WriteString game_version
  let p : bf_write := p.WriteByte (0x80 ||| 0x10 ||| (if has_tags then 0x20 else 0x00) ||| 0x01 : Nat)
  let p : bf_write := p.WriteShort udp_port
  let p : bf_write := p.WriteLongLong steamid
  let p : bf_write := if has_tags then p.WriteString tags else p
  let p : bf_write := p.WriteLongLong appid
  { s with
    reply_info := reply_info
    gameserver_context_initialized := gameserver_context_initialized
    info_cache_packet := p
    rebuilds := s.rebuilds + 1 }

/-- Function `CallInfoHook( from )`, given the global `reply_info`. A `NULL` from
`GetString` makes the `std::string` assignment (or the `[0]`, or `strtoll`) undefined;
the embedding returns `none` there. -/
def CallInfoHook {D : Type} (ops : NumOps D) (lua : Lua D) (reply_info : reply_info_t)
    (from_ : sockaddr_in) : Option reply_info_t :=
  if !lua.hook_is_table then some reply_info
  else if !lua.run_is_function then some reply_info
  else
    let newreply : reply_info_t :=
      { dontsend := false
        game_name := reply_info.game_name
        map_name := reply_info.map_name
        game_dir := reply_info.game_dir
        gamemode_name := reply_info.gamemode_name
        amt_clients := reply_info.amt_clients
        max_clients := reply_info.max_clients
        amt_bots := reply_info.amt_bots
        server_type := reply_info.server_type
        os_type := reply_info.os_type
        passworded := reply_info.passworded
        secure := reply_info.secure
        game_version := reply_info.game_version
        udp_port := reply_info.udp_port
        tags := reply_info.tags
        appid := reply_info.appid
        steamid := reply_info.steamid }
    match lua.run_info from_ reply_info with
    | LuaReturn.boolean b =>
      if b then some reply_info else some { newreply with dontsend := true }
    | LuaReturn.table t => do
      let name ← GetString ops (t InfoField.name)
      let newreply := { newreply with game_name := cstr name }
      let map ← GetString ops (t InfoField.map)
      let newreply := { newreply with map_name := cstr map }
      let folder ← GetString ops (t InfoField.folder)
      let newreply := { newreply with game_dir := cstr folder }
      let gamemode ← GetString ops (t InfoField.gamemode)
      let newreply := { newreply with gamemode_name := cstr gamemode }
      let newreply := { newreply with amt_clients := ops.toInt32 (GetNumber ops (t InfoField.players)) }
      let newreply := { newreply with max_clients := ops.toInt32 (GetNumber ops (t InfoField.maxplayers)) }
      let newreply := { newreply with amt_bots := ops.toInt32 (GetNumber ops (t InfoField.bots)) }
      let servertype ← GetString ops (t InfoField.servertype)
      let newreply := { newreply with server_type := servertype.getD 0 0 }
      let os ← GetString ops (t InfoField.os)
      let newreply := { newreply with os_type := os.getD 0 0 }
      let newreply := { newreply with passworded := GetBool (t InfoField.passworded) }
      let newreply := { newreply with secure := GetBool (t InfoField.VAC) }
      let newreply := { newreply with udp_port := ops.toInt32 (GetNumber ops (t InfoField.gameport)) }
      let steamid ← GetString ops (t InfoField.steamid)
      let newreply := { newreply with steamid := toUnsigned 64 (strtoll (cstr steamid)) }
      let tags ← GetString ops (t InfoField.tags)
      let newreply := { newreply with tags := cstr tags }
      pure newreply
    | LuaReturn.other => some newreply

/-- The struct `player_t`. -/
structure player_t (D : Type) where
  index : Byte
  name : List Byte
  score : D
  time : D

/-- The struct `reply_player_t`. -/
structure reply_player_t (D : Type) where
  dontsend : Bool
  senddefault : Bool
  count : Byte
  players : List (player_t D)

/-- The loop of `CallPlayerHook` over the entries `1 .. count` of the returned table,
starting at index `i`. -/
def CallPlayerHook.readPlayers {D : Type} (ops : NumOps D) :
    Nat → List (LuaTable PlayerField D) → Option (List (player_t D))
  | _, [] => some []
  | i, e :: es => do
    let name ← GetString ops (e PlayerField.name)
    let newPlayer : player_t D :=
      { index := byteOf i
        name := cstr name
        score := GetNumber ops (e PlayerField.score)
        time := GetNumber ops (e PlayerField.time) }
    let newPlayers ← CallPlayerHook.readPlayers ops (i + 1) es
    pure (newPlayer :: newPlayers)

/-- Function `CallPlayerHook( from )`. The local `newreply` is not initialised, so its
`count` is the indeterminate byte `count0`; reading `newreply.players[i]` beyond the end
of the vector is undefined and gives `none`, as does a `NULL` from `GetString`. -/
def CallPlayerHook {D : Type} (ops : NumOps D) (lua : Lua D) (count0 : Byte)
    (from_ : sockaddr_in) : Option (reply_player_t D) :=
  let newreply : reply_player_t D :=
    { dontsend := false, senddefault := true, count := count0, players := [] }
  if !lua.hook_is_table then some newreply
  else if !lua.run_is_function then some newreply
  else
    match (List.range newreply.count.val).mapM (fun i => newreply.players[i]?) with
    | none => none
    | some _ =>
      match lua.run_player from_ with
      | LuaReturn.boolean b =>
        if !b then some { newreply with senddefault := false, dontsend := true }
        else some newreply
      | LuaReturn.table entries =>
        let newreply := { newreply with senddefault := false }
        let count := entries.length
        let newreply := { newreply with count := byteOf count }
        match CallPlayerHook.readPlayers ops 0 entries with
        | none => none
        | some newPlayers => some { newreply with players := newPlayers }
      | LuaReturn.other => some newreply

/-- The loop of `BuildReplyPlayerPacket`: `n` iterations are left and the loop variable
is `i`. -/
def BuildReplyPlayerPacket.loop {D : Type} (ops : NumOps D) (players : List (player_t D)) :
    Nat → Nat → bf_write → Option bf_write
  | 0, _, p => some p
  | n + 1, i, p =>
    match players[i]? with
    | none => none
    | some player =>
      let p := p.WriteByte i
      let p := p.WriteString player.name
      let p := p.WriteLong (ops.toInt32 player.score)
      let p := p.WriteFloat (ops.toFloatBits player.time)
      BuildReplyPlayerPacket.loop ops players n (i + 1) p

/-- Function `BuildReplyPlayerPacket( r_player )` acting on `player_cache_packet`; reading
`r_player.players[i]` beyond the end of the vector gives `none`. -/
def BuildReplyPlayerPacket {D : Type} (ops : NumOps D) (r_player : reply_player_t D)
    (player_cache_packet : bf_write) : Option bf_write :=
  let p := player_cache_packet.Reset
  let p := p.WriteLong (-1)
  let p := p.WriteByte 68
  let p := p.WriteByte r_player.count.val
  BuildReplyPlayerPacket.loop ops r_player.players r_player.count.val 0 p

/-- The bytes one player takes in the player reply. -/
def playerRecordSize {D : Type} (player : player_t D) : Nat :=
  1 + ((cstr player.name).length + 1) + 4 + 4

/-- The number of bytes the writes of `BuildReplyPlayerPacket` ask the writer for. -/
def replyPlayerSize {D : Type} (r_player : reply_player_t D) : Nat :=
  6 + ((r_player.players.take r_player.count.val).map playerRecordSize).sum

/-- The first statement of `SendInfoCache`: rebuild the reply when the cache is older than
`info_cache_time` seconds, in `uint32_t` arithmetic. -/
def SendInfoCache.refresh {CM : Type} (host : Host) (time : Nat) (s : State CM) : State CM :=
  if toUnsigned 32 ((time : Int) - (s.info_cache_last_update : Int)) ≥ s.info_cache_time then
    { BuildReplyInfo host s with info_cache_last_update := time }
  else s

/-- Function `SendInfoCache( from, time )`. -/
def SendInfoCache {D CM : Type} (ops : NumOps D) (env : Env D) (from_ : sockaddr_in)
    (time : Nat) (s : State CM) : Option (PacketType × State CM) :=
  let s := SendInfoCache.refresh env.host time s
  let s := { s with hook_calls := s.hook_calls + 1 }
  match CallInfoHook ops env.lua s.reply_info from_ with
  | none => none
  | some info =>
    if info.dontsend then some (PacketType.Invalid, s)
    else
      let s := { s with info_cache_packet := BuildReplyInfoPacket info s.info_cache_packet }
      let s := { s with sent := s.sent ++ [(from_, s.info_cache_packet.written)] }
      some (PacketType.Invalid, s)

/-- Function `HandleInfoQuery( from )`, with `ClientManager::CheckIPRate` a parameter. -/
def HandleInfoQuery {D CM : Type} (ops : NumOps D) (CheckIPRate : CM → Nat → Nat → Bool × CM)
    (env : Env D) (from_ : sockaddr_in) (s : State CM) : Option (PacketType × State CM) :=
  let time := env.plat_time % 2 ^ 32
  let admitted := CheckIPRate s.client_manager (s_addr from_) time
  let s := { s with client_manager := admitted.2 }
  if !admitted.1 then some (PacketType.Invalid, s)
  else if s.info_cache_enabled then SendInfoCache ops env from_ time s
  else some (PacketType.Good, s)

/-- Function `HandlePlayerQuery( from )`. -/
def HandlePlayerQuery {D CM : Type} (ops : NumOps D) (env : Env D) (from_ : sockaddr_in)
    (s : State CM) : Option (PacketType × State CM) :=
  let s := { s with hook_calls := s.hook_calls + 1 }
  match CallPlayerHook ops env.lua env.indeterminate_count from_ with
  | none => none
  | some player =>
    if player.senddefault then some (PacketType.Good, s)
    else if player.dontsend then some (PacketType.Invalid, s)
    else
      match BuildReplyPlayerPacket ops player s.player_cache_packet with
      | none => none
      | some p =>
        let s := { s with player_cache_packet := p }
        let s := { s with sent := s.sent ++ [(from_, s.player_cache_packet.written)] }
        some (PacketType.Invalid, s)

/-- Function `IsPacketQueueFull( )`. -/
def IsPacketQueueFull {CM : Type} (s : State CM) : Bool :=
  s.threaded_socket_queue.length ≥ threaded_socket_max_queue

/-- Function `PopPacketFromQueue( p )`: `none` stands for `false`. -/
def PopPacketFromQueue {CM : Type} (s : State CM) : Option packet_t × State CM :=
  match s.threaded_socket_queue with
  | [] => (none, s)
  | front :: rest => (some front, { s with threaded_socket_queue := rest })

/-- Function `PushPacketToQueue( p )`. -/
def PushPacketToQueue {CM : Type} (p : packet_t) (s : State CM) : State CM :=
  { s with threaded_socket_queue := s.threaded_socket_queue ++ [p] }

/-- The original `recvfrom` behind the detour: `none` when the trampoline is null;
otherwise, for a buffer length, `none` when the call returns -1 and else the datagram it
stored, with its source address and the address length it reported. -/
abbrev Trampoline := Option (Nat → Option packet_t)

/-- Function `ReceiveAndAnalyzePacket`. The result `none` is a fault inside a handler;
`some (none, _)` is the return value -1; `some (some p, _)` is the return value
`p.buffer.length` with `p.buffer` left in `buf` and `p.address` in `from`. -/
def ReceiveAndAnalyzePacket {D CM : Type} (ops : NumOps D)
    (CheckIPRate : CM → Nat → Nat → Bool × CM) (env : Env D) (trampoline : Trampoline)
    (buflen : Nat) (s : State CM) : Option (Option packet_t × State CM) :=
  match trampoline with
  | none => some (none, s)
  | some recvfrom =>
    match recvfrom buflen with
    | none => some (none, s)
    | some p =>
      let len : Int := p.buffer.length
      let type := ClassifyPacket p.buffer len
      let handled : Option (PacketType × State CM) :=
        if type = PacketType.Info then HandleInfoQuery ops CheckIPRate env p.address s
        else some (type, s)
      match handled with
      | none => none
      | some (type, s) =>
        let handled : Option (PacketType × State CM) :=
          if type = PacketType.Player then HandlePlayerQuery ops env p.address s
          else some (type, s)
        match handled with
        | none => none
        | some (type, s) =>
          if type ≠ PacketType.Invalid then some (some p, s) else some (none, s)

/-- One iteration of the loop of `PacketReceiverThread`; `readable` is the outcome of
`select`. -/
def PacketReceiverThread.step {D CM : Type} (ops : NumOps D)
    (CheckIPRate : CM → Nat → Nat → Bool × CM) (env : Env D) (trampoline : Trampoline)
    (readable : Bool) (s : State CM) : Option (State CM) :=
  if IsPacketQueueFull s then some s
  else if !readable then some s
  else
    match ReceiveAndAnalyzePacket ops CheckIPRate env trampoline threaded_socket_max_buffer s with
    | none => none
    | some (none, s) => some s
    | some (some received, s) =>
      let p : packet_t :=
        { address := received.address
          address_size := received.address_size
          buffer := received.buffer.take received.buffer.length }
      some (PushPacketToQueue p s)

/-- What a call of `recvfrom` hands back: the return value, the bytes stored in `buf`,
the bytes stored in `from` and the final `*fromlen`. -/
structure RecvResult where
  ret : Int
  buf : List Byte
  addr : List Byte
  fromlen : Nat
deriving DecidableEq

/-- Function `recvfrom_detour`; `on_game_socket` is `s == game_socket`, and `buflen` is
within the range of `ssize_t`. -/
def recvfrom_detour {CM : Type} (on_game_socket : Bool) (trampoline : Trampoline)
    (buflen : Nat) (fromlen : Nat) (s : State CM) : RecvResult × State CM :=
  if !on_game_socket then
    match trampoline with
    | none => ({ ret := -1, buf := [], addr := [], fromlen := fromlen }, s)
    | some recvfrom =>
      match recvfrom buflen with
      | none => ({ ret := -1, buf := [], addr := [], fromlen := fromlen }, s)
      | some p =>
        ({ ret := p.buffer.length, buf := p.buffer, addr := p.address,
           fromlen := p.address_size }, s)
  else
    match PopPacketFromQueue s with
    | (none, s) => ({ ret := -1, buf := [], addr := [], fromlen := fromlen }, s)
    | (some p, s) =>
      let len := min p.buffer.length buflen
      let buffer := p.buffer.take len
      let addrlen := min fromlen p.address_size
      ({ ret := len, buf := buffer, addr := p.address.take addrlen, fromlen := addrlen }, s)

/-! ## Auxiliary views used in the proofs -/

/-- A sequence of byte-aligned `WriteUBitLong` calls, one per chunk. -/
def bf_write.run (chunks : List (List Byte)) (w : bf_write) : bf_write :=
  chunks.foldl bf_write.writeBytes w

/-- A run of calls of `recvfrom_detour` on the game socket, each with its buffer length and
address length, keeping only the state. -/
def drain {CM : Type} (calls : List (Nat × Nat)) (s : State CM) : State CM :=
  calls.foldl (fun st c => (recvfrom_detour true none c.1 c.2 st).2) s

/-! ## Concrete inputs -/

/-- A reply of a small server: name "A", map "B", directory "C", description "D", version
"1", tags " gm:x". -/
def exampleInfo : reply_info_t :=
  { dontsend := false, game_name := [65], map_name := [66], game_dir := [67],
    gamemode_name := [68], amt_clients := 3, max_clients := 16, amt_bots := 1,
    server_type := 100, os_type := 108, passworded := true, secure := false,
    game_version := [49], udp_port := 27015, tags := [32, 103, 109, 58, 120], appid := 4000,
    steamid := 76561197960265728 }

/-- A roster of two players, "a" with score 7 after 1 second and "b" with score 0 after 2. -/
def examplePair : reply_player_t Int :=
  { dontsend := false, senddefault := false, count := 2,
    players := [{ index := 0, name := [97], score := 7, time := 1 },
                { index := 1, name := [98], score := 0, time := 2 }] }

/-- A roster of 102 players with empty names, as a table of 102 entries gives. -/
def exampleCrowd : reply_player_t Int :=
  { dontsend := false, senddefault := false, count := 102,
    players := List.replicate 102 { index := 0, name := [], score := 0, time := 0 } }

/-- The address 192.0.2.1:27005 as a `sockaddr_in`. -/
def exampleAddr : sockaddr_in := [2, 0, 105, 125, 192, 0, 2, 1, 0, 0, 0, 0, 0, 0, 0, 0]

/-- An info query: the header -1 and `'T'`. -/
def exampleInfoQuery : packet_t :=
  { address := exampleAddr, address_size := 16, buffer := [255, 255, 255, 255, 84] }

/-- A host named "S" on the map "gm" with five clients, three of them bots, secured and
without a password. -/
def exampleHost : Host :=
  { server_name := [83], map_name := [103, 109], appid := 4000, num_clients := 5,
    sv_visiblemaxplayers := none, num_fake_clients := 3, password := none, context_init := true,
    steam_secure := some true, steamid := some 90071992547409920 }

/-- A Lua state without the global table `hook`. -/
def luaWithoutHook : Lua Int :=
  { hook_is_table := false, run_is_function := false
    run_info := fun _ _ => LuaReturn.other, run_player := fun _ => LuaReturn.other }

/-- A Lua state whose `hook.Run` returns the given values. -/
def luaReturning (info : LuaReturn (LuaTable InfoField Int))
    (player : LuaReturn (List (LuaTable PlayerField Int))) : Lua Int :=
  { hook_is_table := true, run_is_function := true
    run_info := fun _ _ => info, run_player := fun _ => player }

/-- A rate limiter without state that admits every request. -/
def admitAll : Unit → Nat → Nat → Bool × Unit := fun cm _ _ => (true, cm)

/-- The start-up description of a server with 16 slots on port 27015. -/
def exampleStaticHost : StaticHost :=
  { game_description := [83, 98], game_dir := [47, 115, 47, 103], max_clients := 16,
    udp_port := 27015, gamemode_name := [115], gamemode_workshopid := 0,
    steam_inf := some (some [80, 97, 116, 99, 104, 86, 101, 114, 115, 105, 111, 110, 61, 50, 51, 10]) }

/-- The globals after `Initialize`, with the cache switched on or off. -/
def exampleStart (enabled : Bool) : State Unit :=
  { State.initial () with
    reply_info := BuildStaticReplyInfo exampleStaticHost reply_info_zero
    info_cache_enabled := enabled }

/-- The inputs of one step: the example host, no `hook` table, 100 seconds after start. -/
def exampleEnv : Env Int :=
  { host := exampleHost, lua := luaWithoutHook, plat_time := 100, indeterminate_count := 0 }

/-- A returned table that sets the eight string fields and the two flags but leaves out
`players`, `maxplayers`, `bots` and `gameport`. -/
def tableWithoutCounts : LuaTable InfoField Int := fun f =>
  match f with
  | InfoField.name => LuaValue.string [88]
  | InfoField.map => LuaValue.string [89]
  | InfoField.folder => LuaValue.string [90]
  | InfoField.gamemode => LuaValue.string [87]
  | InfoField.servertype => LuaValue.string [100]
  | InfoField.os => LuaValue.string [108]
  | InfoField.steamid => LuaValue.string [52, 50]
  | InfoField.tags => LuaValue.string []
  | InfoField.passworded => LuaValue.boolean true
  | InfoField.VAC => LuaValue.boolean true
  | _ => LuaValue.nil

/-- A returned roster of two entries, "a" with score 7 and time 1, "b" with score 0 and
time 2. -/
def exampleRoster : List (LuaTable PlayerField Int) :=
  [fun f => match f with
    | PlayerField.name => LuaValue.string [97]
    | PlayerField.score => LuaValue.number 7
    | PlayerField.time => LuaValue.number 1,
   fun f => match f with
    | PlayerField.name => LuaValue.string [98]
    | PlayerField.score => LuaValue.number 0
    | PlayerField.time => LuaValue.number 2]

/-- An ordinary game packet of five bytes, with header 0. -/
def exampleGamePacket : packet_t :=
  { address := exampleAddr, address_size := 16, buffer := [0, 0, 0, 0, 7] }

/-- A datagram that is exactly the four bytes of the split-packet header -2. -/
def exampleSplitHeader : List Byte := [254, 255, 255, 255]

/-! ## The receiver and the consumer around the queue

The receiver thread tests `IsPacketQueueFull` and pushes under two separate acquisitions of
the mutex, so the consumer may pop in between. `QueueSystem` keeps, next to the globals,
whether the one receiver is between its test and its push, and as ghost fields the
datagrams pushed and popped so far. -/

/-- The globals together with the position of the receiver thread in its loop. -/
structure QueueSystem (CM : Type) where
  state : State CM
  /-- The receiver found the queue not full in this iteration and has not pushed yet. -/
  receiver_may_push : Bool
  /-- Ghost: every datagram pushed so far, oldest first. -/
  pushed : List packet_t
  /-- Ghost: every datagram popped so far, oldest first. -/
  popped : List packet_t

/-- The atomic actions of the two threads on the queue. -/
inductive QueueAction (D : Type) where
  /-- Receiver, head of the loop: `IsPacketQueueFull( )`. -/
  | check
  /-- Receiver, rest of the iteration: `select`, `ReceiveAndAnalyzePacket` and, for a
  datagram to hand on, `PushPacketToQueue`. -/
  | receive (env : Env D) (trampoline : Trampoline) (readable : Bool)
  /-- Consumer: `PopPacketFromQueue`. -/
  | pop

/-- The system before the receiver thread has started its first iteration. -/
def QueueSystem.start {CM : Type} (s : State CM) : QueueSystem CM :=
  { state := s, receiver_may_push := false, pushed := [], popped := [] }

/-- One atomic action; `none` when the action cannot happen at this point of the receiver
loop, or when a handler faults. -/
def QueueSystem.step {D CM : Type} (ops : NumOps D) (CheckIPRate : CM → Nat → Nat → Bool × CM)
    (a : QueueAction D) (σ : QueueSystem CM) : Option (QueueSystem CM) :=
  match a with
  | QueueAction.check =>
    if σ.receiver_may_push then none
    else some { σ with receiver_may_push := !IsPacketQueueFull σ.state }
  | QueueAction.receive env trampoline readable =>
    if !σ.receiver_may_push then none
    else if !readable then some { σ with receiver_may_push := false }
    else
      match ReceiveAndAnalyzePacket ops CheckIPRate env trampoline threaded_socket_max_buffer
          σ.state with
      | none => none
      | some (none, s) => some { σ with state := s, receiver_may_push := false }
      | some (some received, s) =>
        let p : packet_t :=
          { address := received.address
            address_size := received.address_size
            buffer := received.buffer.take received.buffer.length }
        some { state := PushPacketToQueue p s, receiver_may_push := false,
               pushed := σ.pushed ++ [p], popped := σ.popped }
  | QueueAction.pop =>
    match PopPacketFromQueue σ.state with
    | (none, s) => some { σ with state := s }
    | (some p, s) => some { σ with state := s, popped := σ.popped ++ [p] }

/-- A run of atomic actions, in the order in which the mutex serialises them. -/
def QueueSystem.run {D CM : Type} (ops : NumOps D) (CheckIPRate : CM → Nat → Nat → Bool × CM) :
    List (QueueAction D) → QueueSystem CM → Option (QueueSystem CM)
  | [], σ => some σ
  | a :: rest, σ =>
    match QueueSystem.step ops CheckIPRate a σ with
    | none => none
    | some σ1 => QueueSystem.run ops CheckIPRate rest σ1

/-- The invariant of the queue: it holds at most 1000 datagrams, fewer than 1000 while the
receiver is between its test and its push, and it is what was pushed and not yet popped. -/
def QueueSystem.Inv {CM : Type} (σ : QueueSystem CM) : Prop :=
  σ.state.threaded_socket_queue.length ≤ threaded_socket_max_queue
    ∧ (σ.receiver_may_push = true →
        σ.state.threaded_socket_queue.length < threaded_socket_max_queue)
    ∧ σ.pushed = σ.popped ++ σ.state.threaded_socket_queue

/-- A run in which the receiver enqueues a game packet and an info query (the cache is off)
and the consumer then pops once. -/
def exampleActions : List (QueueAction Int) :=
  [QueueAction.check,
   QueueAction.receive exampleEnv (some (fun _ => some exampleGamePacket)) true,
   QueueAction.check,
   QueueAction.receive exampleEnv (some (fun _ => some exampleInfoQuery)) true,
   QueueAction.pop]

/-- A start-up description whose `steam.inf` begins with the four-byte line "v=1". -/
def exampleShortInf : StaticHost :=
  { exampleStaticHost with steam_inf := some (some [118, 61, 49, 10]) }

/-- A player query: the header -1 and `'U'`. -/
def examplePlayerQuery : packet_t :=
  { address := exampleAddr, address_size := 16, buffer := [255, 255, 255, 255, 85] }

/-- The example inputs with a callback registered that returns the table
`tableWithoutCounts` for info queries and the roster `exampleRoster` for player queries. -/
def exampleEnvWithHook : Env Int :=
  { exampleEnv with
    lua := luaReturning (LuaReturn.table tableWithoutCounts) (LuaReturn.table exampleRoster) }

/-- A sequence of rebuilds, one per reading of the host. -/
def rebuildAll {CM : Type} (hosts : List Host) (s : State CM) : State CM :=
  hosts.foldl (fun st host => BuildReplyInfo host st) s

/-- A returned roster of 256 entries, each "a" with score 0 and time 0. -/
def exampleFullTable : List (LuaTable PlayerField Int) :=
  List.replicate 256 (fun f => match f with
    | PlayerField.name => LuaValue.string [97]
    | PlayerField.score => LuaValue.number 0
    | PlayerField.time => LuaValue.number 0)

/-- A returned roster of 102 entries, each with an empty name, score 0 and time 0. -/
def exampleCrowdTable : List (LuaTable PlayerField Int) :=
  List.replicate 102 (fun f => match f with
    | PlayerField.name => LuaValue.string []
    | PlayerField.score => LuaValue.number 0
    | PlayerField.time => LuaValue.number 0)

/-! ## Theorems -/

/-! ### Bytes and the bit writer -/

theorem leBytes_length (k v : Nat) : (leBytes k v).length = k := by
  induction k generalizing v with
  | zero => rfl
  | succ k ih => simp [leBytes, ih]

theorem leBytes_mod (k v : Nat) : leBytes k (v % 256 ^ k) = leBytes k v := by
  induction k generalizing v with
  | zero => rfl
  | succ k ih =>
    have h1 : v % 256 ^ (k + 1) % 256 = v % 256 :=
      Nat.mod_mod_of_dvd v (Dvd.intro_left (256 ^ k) rfl)
    have h2 : v % 256 ^ (k + 1) / 256 = (v / 256) % 256 ^ k := by
      rw [pow_succ, Nat.mul_comm, Nat.mod_mul_right_div_self]
    simp only [leBytes, byteOf, h1, h2, ih]

/-- Reading back the bytes of `leBytes k v` gives the low `k` bytes of `v`. -/
theorem leValue_leBytes (k v : Nat) : leValue (leBytes k v) = v % 256 ^ k := by
  induction k generalizing v with
  | zero => simp [leBytes, leValue, Nat.mod_one]
  | succ k ih =>
    simp only [leBytes, leValue, byteOf, ih]
    rw [pow_succ, Nat.mul_comm (256 ^ k) 256, Nat.mod_mul]

theorem toUnsigned_mod (a b : Nat) (hab : a ≤ b) (x : Int) :
    toUnsigned b x % 2 ^ a = toUnsigned a x := by
  unfold toUnsigned
  have hpos : (0 : Int) < 2 ^ b := by positivity
  have hpos2 : (0 : Int) < 2 ^ a := by positivity
  have hdvd : ((2 : Int) ^ a) ∣ 2 ^ b := pow_dvd_pow 2 hab
  have h1 : (0 : Int) ≤ x % 2 ^ b := Int.emod_nonneg _ (ne_of_gt hpos)
  have h2 : (0 : Int) ≤ x % 2 ^ a := Int.emod_nonneg _ (ne_of_gt hpos2)
  have : ((x % 2 ^ b).toNat % 2 ^ a : Nat) = ((x % 2 ^ a).toNat : Int) := by
    push_cast
    rw [Int.toNat_of_nonneg h1, Int.toNat_of_nonneg h2, Int.emod_emod_of_dvd _ hdvd]
  exact_mod_cast this

theorem leBytes_toUnsigned (k b : Nat) (hkb : 8 * k ≤ b) (x : Int) :
    leBytes k (toUnsigned b x) = leBytes k (toUnsigned (8 * k) x) := by
  rw [← leBytes_mod k (toUnsigned b x)]
  have : (256 : Nat) ^ k = 2 ^ (8 * k) := by rw [pow_mul]; norm_num
  rw [this, toUnsigned_mod _ _ hkb]

theorem toUnsigned_lt (b : Nat) (x : Int) : toUnsigned b x < 2 ^ b := by
  unfold toUnsigned
  have hpos : (0 : Int) < 2 ^ b := by positivity
  have h1 : (0 : Int) ≤ x % 2 ^ b := Int.emod_nonneg _ (ne_of_gt hpos)
  have h2 : x % 2 ^ b < 2 ^ b := Int.emod_lt_of_pos _ hpos
  have : ((x % 2 ^ b).toNat : Int) < ((2 ^ b : Nat) : Int) := by
    rw [Int.toNat_of_nonneg h1]; exact_mod_cast h2
  exact_mod_cast this

theorem signedField_32 (x : Int) : signedField 32 x = toUnsigned 32 x := by
  have h := toUnsigned_lt 32 x
  simp only [signedField]
  norm_num at h ⊢
  split <;> omega

theorem signedField_16 (x : Int) :
    signedField 16 x % 2 ^ 16
      = toUnsigned 15 x + (if 2 ^ 31 ≤ toUnsigned 32 x then 2 ^ 15 else 0) := by
  have h := toUnsigned_lt 32 x
  rw [← toUnsigned_mod 15 32 (by decide) x]
  simp only [signedField]
  norm_num at h ⊢
  split <;> omega

theorem signedField_8_char (c : Byte) : signedField 8 (charToInt c) % 2 ^ 8 = c.val := by
  have hc := c.isLt
  simp only [signedField, charToInt, toUnsigned]
  norm_num
  split <;> split <;> omega

theorem leBytes_signedField_16 (x : Int) :
    leBytes 2 (signedField 16 x)
      = leBytes 2 (toUnsigned 15 x + (if 2 ^ 31 ≤ toUnsigned 32 x then 2 ^ 15 else 0)) := by
  rw [← leBytes_mod 2 (signedField 16 x), show (256 : Nat) ^ 2 = 2 ^ 16 from rfl, signedField_16]

theorem signedField_16_of_bit15 (x : Int)
    (h : 2 ^ 15 ≤ toUnsigned 16 x ↔ 2 ^ 31 ≤ toUnsigned 32 x) :
    signedField 16 x % 2 ^ 16 = toUnsigned 16 x := by
  have hlt := toUnsigned_lt 32 x
  rw [signedField_16, ← toUnsigned_mod 15 32 (by decide) x]
  rw [← toUnsigned_mod 16 32 (by decide) x] at h ⊢
  norm_num at h hlt ⊢
  split <;> omega

theorem bit15_eq_sign_of_int16 (x : Int) (hlo : -32768 ≤ x) (hhi : x ≤ 32767) :
    2 ^ 15 ≤ toUnsigned 16 x ↔ 2 ^ 31 ≤ toUnsigned 32 x := by
  simp only [toUnsigned]
  norm_num
  omega

theorem leBytes_signedField_16_of_bit15 (x : Int)
    (h : 2 ^ 15 ≤ toUnsigned 16 x ↔ 2 ^ 31 ≤ toUnsigned 32 x) :
    leBytes 2 (signedField 16 x) = leBytes 2 (toUnsigned 16 x) := by
  rw [← leBytes_mod 2 (signedField 16 x), show (256 : Nat) ^ 2 = 2 ^ 16 from rfl,
    signedField_16_of_bit15 x h]

theorem leBytes_signedField_16_of_int16 (x : Int) (hlo : -32768 ≤ x) (hhi : x ≤ 32767) :
    leBytes 2 (signedField 16 x) = leBytes 2 (toUnsigned 16 x) :=
  leBytes_signedField_16_of_bit15 x (bit15_eq_sign_of_int16 x hlo hhi)

theorem byteOf_signedField_char (c : Byte) : byteOf (signedField 8 (charToInt c)) = c := by
  apply Fin.ext
  have h := signedField_8_char c
  simp only [byteOf]
  norm_num at h
  exact h

namespace bf_write

theorem emit_nil (w : bf_write) : w.emit [] = w := by
  cases w; simp [emit]

theorem emit_emit (w : bf_write) (a b : List Byte) : (w.emit a).emit b = w.emit (a ++ b) := by
  simp [emit, List.drop_drop, List.append_assoc]

theorem emit_rest_length (w : bf_write) (bs : List Byte) :
    (w.emit bs).rest.length = w.rest.length - bs.length := by
  simp [emit]

theorem writeBytes_fits (w : bf_write) (bs : List Byte) (h : bs.length ≤ w.rest.length) :
    w.writeBytes bs = w.emit bs := by
  unfold writeBytes emit
  rw [if_neg (by omega)]

theorem WriteBits_fits (w : bf_write) (bs : List Byte) (h : bs.length ≤ w.rest.length) :
    w.WriteBits bs = w.emit bs := by
  unfold WriteBits emit
  rw [if_neg (by omega)]

theorem WriteFloat_fits (w : bf_write) (bits : Nat) (h : 4 ≤ w.rest.length) :
    w.WriteFloat bits = w.emit (leBytes 4 bits) := by
  unfold WriteFloat
  exact WriteBits_fits w _ (by rw [leBytes_length]; exact h)

theorem WriteByte_fits (w : bf_write) (val : Int) (h : 1 ≤ w.rest.length) :
    w.WriteByte val = w.emit [byteOf (toUnsigned 8 val)] := by
  unfold WriteByte WriteUBitLong
  rw [writeBytes_fits _ _ (by rw [leBytes_length]; exact h)]
  rw [show (8 : Nat) / 8 = 1 from rfl, leBytes_toUnsigned 1 32 (by decide)]
  rfl

theorem WriteChar_fits (w : bf_write) (c : Byte) (h : 1 ≤ w.rest.length) :
    w.WriteChar (charToInt c) = w.emit [c] := by
  unfold WriteChar WriteSBitLong WriteUBitLong
  rw [writeBytes_fits _ _ (by rw [leBytes_length]; exact h)]
  rw [show (8 : Nat) / 8 = 1 from rfl]
  simp only [leBytes, byteOf_signedField_char]

theorem WriteLong_fits (w : bf_write) (val : Int) (h : 4 ≤ w.rest.length) :
    w.WriteLong val = w.emit (leBytes 4 (toUnsigned 32 val)) := by
  unfold WriteLong WriteSBitLong WriteUBitLong
  rw [writeBytes_fits _ _ (by rw [leBytes_length]; exact h), signedField_32]

theorem foldl_WriteChar_fits (l : List Byte) (w : bf_write) (h : l.length ≤ w.rest.length) :
    l.foldl (fun (acc : bf_write) (c : Byte) => acc.WriteChar (charToInt c)) w = w.emit l := by
  induction l generalizing w with
  | nil => simp [emit_nil]
  | cons c l ih =>
    simp only [List.length_cons] at h
    rw [List.foldl_cons, WriteChar_fits w c (by omega), ih _ (by rw [emit_rest_length]; simp; omega),
      emit_emit]
    rfl

theorem WriteString_fits (w : bf_write) (s : List Byte) (h : (cstr s).length + 1 ≤ w.rest.length) :
    w.WriteString s = w.emit (cstr s ++ [0]) := by
  unfold WriteString
  exact foldl_WriteChar_fits _ w (by simpa using h)

end bf_write

theorem byteOf_toUnsigned_val (c : Byte) : byteOf (toUnsigned 8 (c.val : Int)) = c := by
  apply Fin.ext
  simp only [byteOf, toUnsigned]
  have h256 : ((c.val : Int) % 2 ^ 8).toNat = c.val % 256 := by
    have : ((c.val : Int) % 2 ^ 8) = ((c.val % 256 : Nat) : Int) := by push_cast; norm_num
    rw [this, Int.toNat_natCast]
  rw [h256, Nat.mod_mod]
  exact Nat.mod_eq_of_lt c.isLt

theorem leBytes_minus_one : leBytes 4 (toUnsigned 32 (-1)) = [255, 255, 255, 255] := by
  decide

theorem cstr_of_NulFree (s : List Byte) (h : NulFree s) : cstr s = s := by
  unfold cstr
  rw [List.takeWhile_eq_self_iff]
  intro b hb
  have hne : b ≠ 0 := fun h0 => h (h0 ▸ hb)
  simpa using hne

theorem NulFree_cstr (s : List Byte) : NulFree (cstr s) := by
  intro h0
  have := List.mem_takeWhile_imp h0
  simp at this

theorem bf_write.emit_step {w0 p : bf_write} {acc : List Byte} (hp : p = w0.emit acc)
    (f : bf_write → bf_write) (bs : List Byte)
    (hf : ∀ q : bf_write, bs.length ≤ q.rest.length → f q = q.emit bs)
    (hlen : acc.length + bs.length ≤ w0.rest.length) : f p = w0.emit (acc ++ bs) := by
  subst hp
  rw [hf _ (by rw [bf_write.emit_rest_length]; omega), bf_write.emit_emit]

/-! ### The packet classifier -/

/-- C1: for every byte sequence `d`, `ClassifyPacket` at `len = d.length` follows the
ordered rules: empty gives Invalid; one to four bytes give Good; otherwise the first four
bytes read as a little-endian signed 32-bit header decide: `-2` gives Invalid, anything but
`-1` gives Good, and for `-1` the byte at offset 4 gives Player for `'U'`, Info for `'T'` and
Good for anything else. -/
theorem ClassifyPacket_ordered_rules (d : List Byte) :
    ClassifyPacket d d.length =
      if d.length = 0 then PacketType.Invalid
      else if d.length ≤ 4 then PacketType.Good
      else if toSigned 32 (leValue (d.take 4)) = -2 then PacketType.Invalid
      else if toSigned 32 (leValue (d.take 4)) ≠ -1 then PacketType.Good
      else if d[4]? = some 85 then PacketType.Player
      else if d[4]? = some 84 then PacketType.Info
      else PacketType.Good := by
  match d with
  | [] => simp [ClassifyPacket]
  | [_] => simp [ClassifyPacket]
  | [_, _] => simp [ClassifyPacket]
  | [_, _, _] => simp [ClassifyPacket]
  | [_, _, _, _] => simp [ClassifyPacket]
  | b0 :: b1 :: b2 :: b3 :: b4 :: rest =>
    have hlen : ((b0 :: b1 :: b2 :: b3 :: b4 :: rest).length : Int) = (rest.length : Int) + 5 := by
      simp only [List.length_cons]; push_cast; ring
    have hread : readInt32LE (b0 :: b1 :: b2 :: b3 :: b4 :: rest)
        = toSigned 32 (leValue ((b0 :: b1 :: b2 :: b3 :: b4 :: rest).take 4)) := by
      simp only [readInt32LE, List.getD_cons_zero, List.getD_cons_succ, List.take, leValue]
      congr 1
      omega
    unfold ClassifyPacket
    rw [hlen, hread]
    have h0 : ¬ ((rest.length : Int) + 5 = 0) := by omega
    have h5 : ¬ ((rest.length : Int) + 5 < 5) := by omega
    simp only [h0, h5, if_false, List.length_cons]
    have hn0 : ¬ (rest.length + 1 + 1 + 1 + 1 + 1 = 0) := by omega
    have hn4 : ¬ (rest.length + 1 + 1 + 1 + 1 + 1 ≤ 4) := by omega
    simp only [hn0, hn4, if_false]
    simp

/-! ### The info reply encoder -/

theorem bf_write.capacity_writeBytes (w : bf_write) (bs : List Byte) :
    (w.writeBytes bs).capacity = w.capacity := by
  unfold bf_write.writeBytes bf_write.capacity
  split
  · simp
  · simp only [List.length_append, List.length_drop]; omega

theorem bf_write.capacity_WriteBits (w : bf_write) (bs : List Byte) :
    (w.WriteBits bs).capacity = w.capacity := by
  unfold bf_write.WriteBits bf_write.capacity
  split
  · rfl
  · simp only [List.length_append, List.length_drop]; omega

theorem bf_write.capacity_WriteByte (w : bf_write) (v : Int) :
    (w.WriteByte v).capacity = w.capacity := bf_write.capacity_writeBytes _ _

theorem bf_write.capacity_WriteLong (w : bf_write) (v : Int) :
    (w.WriteLong v).capacity = w.capacity := bf_write.capacity_writeBytes _ _

theorem bf_write.capacity_WriteFloat (w : bf_write) (v : Nat) :
    (w.WriteFloat v).capacity = w.capacity := bf_write.capacity_WriteBits _ _

theorem bf_write.capacity_WriteString (w : bf_write) (s : List Byte) :
    (w.WriteString s).capacity = w.capacity := by
  unfold bf_write.WriteString
  generalize cstr s ++ [0] = l
  induction l generalizing w with
  | nil => rfl
  | cons c l ih =>
    rw [List.foldl_cons, ih]
    exact bf_write.capacity_writeBytes _ _

theorem bf_write.capacity_Reset (w : bf_write) : w.Reset.capacity = w.capacity := by
  simp [bf_write.Reset, bf_write.capacity]

/-- The loop of `BuildReplyPlayerPacket` returns a writer of the same capacity whenever the
vector holds the players it visits. -/
theorem BuildReplyPlayerPacket.loop_total {D : Type} (ops : NumOps D)
    (players : List (player_t D)) (n i : Nat) (q : bf_write) (h : i + n ≤ players.length) :
    ∃ q', BuildReplyPlayerPacket.loop ops players n i q = some q' ∧ q'.capacity = q.capacity := by
  induction n generalizing i q with
  | zero => exact ⟨q, rfl, rfl⟩
  | succ n ih =>
    have hi : i < players.length := by omega
    obtain ⟨q', hq', hc⟩ := ih (i + 1)
      ((((q.WriteByte i).WriteString players[i].name).WriteLong
        (ops.toInt32 players[i].score)).WriteFloat (ops.toFloatBits players[i].time)) (by omega)
    refine ⟨q', ?_, ?_⟩
    · simp only [BuildReplyPlayerPacket.loop, List.getElem?_eq_getElem hi]
      exact hq'
    · rw [hc, bf_write.capacity_WriteFloat, bf_write.capacity_WriteLong,
        bf_write.capacity_WriteString, bf_write.capacity_WriteByte]

/-- The bytes of the player records of `l`, numbered from `k`, in the layout of the
player reply. -/
theorem BuildReplyPlayerPacket.loop_fits {D : Type} (ops : NumOps D)
    (players : List (player_t D)) (n i : Nat) (q : bf_write) (h : i + n ≤ players.length)
    (hnames : ∀ p ∈ (players.drop i).take n, NulFree p.name)
    (hfit : (((players.drop i).take n).map playerRecordSize).sum ≤ q.rest.length) :
    BuildReplyPlayerPacket.loop ops players n i q =
      some (q.emit ((List.enumFrom i ((players.drop i).take n)).flatMap (fun ip =>
        [byteOf ip.1] ++ (ip.2.name ++ [0]) ++ leBytes 4 (toUnsigned 32 (ops.toInt32 ip.2.score))
          ++ leBytes 4 (ops.toFloatBits ip.2.time)))) := by
  induction n generalizing i q with
  | zero => simp [BuildReplyPlayerPacket.loop, bf_write.emit_nil]
  | succ n ih =>
    have hi : i < players.length := by omega
    have hdrop : (players.drop i).take (n + 1) = players[i] :: (players.drop (i + 1)).take n := by
      rw [List.drop_eq_getElem_cons hi, List.take_succ_cons]
    rw [hdrop] at hnames hfit ⊢
    have hget : players[i]? = some players[i] := List.getElem?_eq_getElem hi
    generalize players[i] = pl at hnames hfit hget ⊢
    have hname : NulFree pl.name := hnames _ (List.mem_cons_self _ _)
    have hc := cstr_of_NulFree _ hname
    simp only [List.map_cons, List.sum_cons, playerRecordSize, hc] at hfit
    have e0 : q = q.emit [] := (bf_write.emit_nil _).symm
    have e1 := bf_write.emit_step e0 (fun w => w.WriteByte i) [byteOf (toUnsigned 8 i)]
      (fun w hw => bf_write.WriteByte_fits w _ (by simpa using hw)) (by simp; omega)
    have e2 := bf_write.emit_step e1 (fun w => w.WriteString pl.name) (cstr pl.name ++ [0])
      (fun w hw => bf_write.WriteString_fits w _ (by simpa using hw)) (by simp [hc]; omega)
    have e3 := bf_write.emit_step e2 (fun w => w.WriteLong (ops.toInt32 pl.score))
      (leBytes 4 (toUnsigned 32 (ops.toInt32 pl.score)))
      (fun w hw => bf_write.WriteLong_fits w _ (by simpa [leBytes_length] using hw))
      (by simp [hc, leBytes_length]; omega)
    have e4 := bf_write.emit_step e3 (fun w => w.WriteFloat (ops.toFloatBits pl.time))
      (leBytes 4 (ops.toFloatBits pl.time))
      (fun w hw => bf_write.WriteFloat_fits w _ (by simpa [leBytes_length] using hw))
      (by simp [hc, leBytes_length]; omega)
    beta_reduce at e4
    have hsz : ([] ++ [byteOf (toUnsigned 8 (i : Int))] ++ (cstr pl.name ++ [0])
        ++ leBytes 4 (toUnsigned 32 (ops.toInt32 pl.score))
        ++ leBytes 4 (ops.toFloatBits pl.time)).length = pl.name.length + 10 := by
      simp [hc, leBytes_length]
    simp only [BuildReplyPlayerPacket.loop, hget]
    rw [e4, ih (i + 1) _ (by omega)
      (fun p hp => hnames p (List.mem_cons_of_mem _ hp))
      (by rw [bf_write.emit_rest_length, hsz]; omega)]
    rw [bf_write.emit_emit, List.enumFrom_cons, List.flatMap_cons]
    have hbyte : byteOf (toUnsigned 8 (i : Int)) = byteOf i := by
      apply Fin.ext
      simp only [byteOf, toUnsigned]
      have : ((i : Int) % 2 ^ 8) = ((i % 256 : Nat) : Int) := by push_cast; norm_num
      rw [this, Int.toNat_natCast, Nat.mod_mod]
    simp only [hc, hbyte, List.nil_append, List.append_assoc]

theorem playerRecords_length {D : Type} (ops : NumOps D) (l : List (player_t D)) (k : Nat) :
    ((List.enumFrom k l).flatMap (fun ip =>
        [byteOf ip.1] ++ (ip.2.name ++ [0]) ++ leBytes 4 (toUnsigned 32 (ops.toInt32 ip.2.score))
          ++ leBytes 4 (ops.toFloatBits ip.2.time))).length
      = (l.map (fun p => p.name.length + 10)).sum := by
  induction l generalizing k with
  | nil => rfl
  | cons p l ih =>
    rw [List.enumFrom_cons, List.flatMap_cons, List.length_append, ih]
    simp [leBytes_length]

/-- C3 (amended): for every player reply with count byte `n`, at least `n` players, names
without NUL and an encoding that fits the 1024-byte buffer, `BuildReplyPlayerPacket` returns
and leaves exactly FF FF FF FF, `'D'`, the byte `n`, and then for each of the first `n`
players in order the index byte `i`, the name with a 0 terminator, the score as 32-bit
little-endian and the elapsed time as the four bytes of its single-precision pattern;
nothing follows and nothing overflows. -/
theorem BuildReplyPlayerPacket_layout {D : Type} (ops : NumOps D) (r : reply_player_t D)
    (w : bf_write) (hcap : w.capacity = 1024) (hcount : r.count.val ≤ r.players.length)
    (hnames : ∀ p ∈ r.players.take r.count.val, NulFree p.name)
    (hfit : replyPlayerSize r ≤ 1024) :
    ∃ p, BuildReplyPlayerPacket ops r w = some p
      ∧ p.written = [0xFF, 0xFF, 0xFF, 0xFF, 68, r.count]
          ++ (List.enum (r.players.take r.count.val)).flatMap (fun ip =>
            [byteOf ip.1] ++ (ip.2.name ++ [0])
              ++ leBytes 4 (toUnsigned 32 (ops.toInt32 ip.2.score))
              ++ leBytes 4 (ops.toFloatBits ip.2.time))
      ∧ p.overflow = false := by
  have hR : w.Reset.rest.length = 1024 := by
    simpa [bf_write.Reset, bf_write.capacity] using hcap
  unfold replyPlayerSize at hfit
  have e0 : w.Reset = w.Reset.emit [] := (bf_write.emit_nil _).symm
  have e1 := bf_write.emit_step e0 (fun q => q.WriteLong (-1)) _
    (fun q h => bf_write.WriteLong_fits q _ (by simpa [leBytes_length] using h))
    (by simp [leBytes_length]; omega)
  have e2 := bf_write.emit_step e1 (fun q => q.WriteByte 68) _
    (fun q h => bf_write.WriteByte_fits q _ (by simpa using h))
    (by simp [leBytes_length]; omega)
  have e3 := bf_write.emit_step e2 (fun q => q.WriteByte r.count.val) _
    (fun q h => bf_write.WriteByte_fits q _ (by simpa using h))
    (by simp [leBytes_length]; omega)
  beta_reduce at e3
  have hloop := BuildReplyPlayerPacket.loop_fits ops r.players r.count.val 0
    (w.Reset.emit ([] ++ leBytes 4 (toUnsigned 32 (-1)) ++ [byteOf (toUnsigned 8 68)]
      ++ [byteOf (toUnsigned 8 r.count.val)]))
    (by omega) (by simpa using hnames)
    (by
      rw [bf_write.emit_rest_length]
      simp only [List.drop_zero, List.length_append, List.length_cons, List.length_nil,
        leBytes_length]
      omega)
  rw [← e3] at hloop
  refine ⟨_, hloop, ?_, ?_⟩
  · rw [e3]
    simp only [bf_write.emit, bf_write.Reset, List.nil_append, List.drop_zero,
      leBytes_minus_one, byteOf_toUnsigned_val, List.append_assoc, List.cons_append, List.enum]
    rfl
  · rw [e3]
    rfl

theorem bf_write.capacity_init (n : Nat) : (bf_write.init n).capacity = n := by
  simp [bf_write.init, bf_write.capacity]

theorem sum_map_replicate {α : Type} (f : α → Nat) (x : α) (n : Nat) :
    ((List.replicate n x).map f).sum = n * f x := by
  induction n with
  | zero => simp
  | succ n ih => rw [List.replicate_succ, List.map_cons, List.sum_cons, ih]; ring

/-- The layout of C3 at a roster of two players. -/
theorem BuildReplyPlayerPacket_layout_pair :
    ∃ p, BuildReplyPlayerPacket intOps examplePair (bf_write.init 1024) = some p
      ∧ p.written = [0xFF, 0xFF, 0xFF, 0xFF, 68, examplePair.count]
          ++ (List.enum (examplePair.players.take examplePair.count.val)).flatMap (fun ip =>
            [byteOf ip.1] ++ (ip.2.name ++ [0])
              ++ leBytes 4 (toUnsigned 32 (intOps.toInt32 ip.2.score))
              ++ leBytes 4 (intOps.toFloatBits ip.2.time))
      ∧ p.overflow = false :=
  BuildReplyPlayerPacket_layout intOps examplePair (bf_write.init 1024)
    (bf_write.capacity_init 1024) (by decide) (by decide) (Nat.le_of_ble_eq_true rfl)

/-- C3 as stated fails: for a roster of 102 players with empty names the encoding would take
1026 bytes, and the packet left in the 1024-byte buffer is not that byte sequence. -/
theorem BuildReplyPlayerPacket_crowd_truncated :
    ∃ p, BuildReplyPlayerPacket intOps exampleCrowd (bf_write.init 1024) = some p
      ∧ p.written ≠ [0xFF, 0xFF, 0xFF, 0xFF, 68, exampleCrowd.count]
          ++ (List.enum (exampleCrowd.players.take exampleCrowd.count.val)).flatMap (fun ip =>
            [byteOf ip.1] ++ (ip.2.name ++ [0])
              ++ leBytes 4 (toUnsigned 32 (intOps.toInt32 ip.2.score))
              ++ leBytes 4 (intOps.toFloatBits ip.2.time)) := by
  obtain ⟨p, hp, hc⟩ := BuildReplyPlayerPacket.loop_total intOps exampleCrowd.players
    exampleCrowd.count.val 0
    ((((bf_write.init 1024).Reset.WriteLong (-1)).WriteByte 68).WriteByte exampleCrowd.count.val)
    (by
      have h1 : exampleCrowd.count.val = 102 := rfl
      have h2 : exampleCrowd.players.length = 102 := List.length_replicate _ _
      omega)
  refine ⟨p, hp, ?_⟩
  intro h
  have hlen := congrArg List.length h
  rw [List.length_append, List.enum, playerRecords_length] at hlen
  have hcap : p.capacity = 1024 := by
    rw [hc, bf_write.capacity_WriteByte, bf_write.capacity_WriteByte,
      bf_write.capacity_WriteLong, bf_write.capacity_Reset, bf_write.capacity_init]
  have hsum : ((exampleCrowd.players.take exampleCrowd.count.val).map
      (fun p => p.name.length + 10)).sum = 1020 := by
    have h1 : exampleCrowd.count.val = 102 := rfl
    have h2 : exampleCrowd.players
        = List.replicate 102 { index := 0, name := [], score := 0, time := 0 } := rfl
    rw [h1, h2, List.take_replicate, sum_map_replicate]
    rfl
  rw [hsum] at hlen
  unfold bf_write.capacity at hcap
  simp only [List.length_cons, List.length_nil] at hlen
  omega

/-- Reading the returned table succeeds exactly when every entry has a name that
`GetString` can render, and then yields one player per entry. -/
theorem CallPlayerHook.readPlayers_total {D : Type} (ops : NumOps D)
    (entries : List (LuaTable PlayerField D)) (i : Nat)
    (h : ∀ e ∈ entries, (GetString ops (e PlayerField.name)).isSome = true) :
    ∃ players, CallPlayerHook.readPlayers ops i entries = some players
      ∧ players.length = entries.length := by
  induction entries generalizing i with
  | nil => exact ⟨[], rfl, rfl⟩
  | cons e es ih =>
    obtain ⟨name, hname⟩ := Option.isSome_iff_exists.mp (h e (List.mem_cons_self _ _))
    obtain ⟨rest, hrest, hlen⟩ := ih (i + 1) (fun e' he' => h e' (List.mem_cons_of_mem _ he'))
    refine ⟨{ index := byteOf i, name := cstr name
              score := GetNumber ops (e PlayerField.score)
              time := GetNumber ops (e PlayerField.time) } :: rest, ?_, by simp [hlen]⟩
    simp only [CallPlayerHook.readPlayers, hname, hrest, Option.bind_eq_bind, Option.some_bind,
      Option.pure_def]

/-- With the indeterminate count at 0 and the bridge available, `CallPlayerHook` is decided
by what `hook.Run` returns. -/
theorem CallPlayerHook_of_run {D : Type} (ops : NumOps D) (lua : Lua D) (from_ : sockaddr_in)
    (ht : lua.hook_is_table = true) (hf : lua.run_is_function = true) :
    CallPlayerHook ops lua 0 from_ =
      match lua.run_player from_ with
      | LuaReturn.boolean b =>
        if !b then some { dontsend := true, senddefault := false, count := 0, players := [] }
        else some { dontsend := false, senddefault := true, count := 0, players := [] }
      | LuaReturn.table entries =>
        match CallPlayerHook.readPlayers ops 0 entries with
        | none => none
        | some newPlayers =>
          some { dontsend := false, senddefault := false, count := byteOf entries.length,
                 players := newPlayers }
      | LuaReturn.other =>
        some { dontsend := false, senddefault := true, count := 0, players := [] } := by
  unfold CallPlayerHook
  simp only [ht, hf, Bool.not_true, Bool.false_eq_true, if_false]
  rfl

/-- The layout that `BuildReplyPlayerPacket` leaves when everything fits. -/
theorem BuildReplyPlayerPacket_fits {D : Type} (ops : NumOps D) (r : reply_player_t D)
    (w : bf_write) (hcap : w.capacity = 1024) (hcount : r.count.val ≤ r.players.length)
    (hnames : ∀ p ∈ r.players.take r.count.val, NulFree p.name)
    (hfit : replyPlayerSize r ≤ 1024) :
    ∃ p, BuildReplyPlayerPacket ops r w = some p
      ∧ p.written = [0xFF, 0xFF, 0xFF, 0xFF, 68, r.count]
          ++ (List.enum (r.players.take r.count.val)).flatMap (fun ip =>
            [byteOf ip.1] ++ (ip.2.name ++ [0])
              ++ leBytes 4 (toUnsigned 32 (ops.toInt32 ip.2.score))
              ++ leBytes 4 (ops.toFloatBits ip.2.time)) := by
  have hR : w.Reset.rest.length = 1024 := by
    simpa [bf_write.Reset, bf_write.capacity] using hcap
  unfold replyPlayerSize at hfit
  have e0 : w.Reset = w.Reset.emit [] := (bf_write.emit_nil _).symm
  have e1 := bf_write.emit_step e0 (fun q => q.WriteLong (-1)) _
    (fun q h => bf_write.WriteLong_fits q _ (by simpa [leBytes_length] using h))
    (by simp [leBytes_length]; omega)
  have e2 := bf_write.emit_step e1 (fun q => q.WriteByte 68) _
    (fun q h => bf_write.WriteByte_fits q _ (by simpa using h))
    (by simp [leBytes_length]; omega)
  have e3 := bf_write.emit_step e2 (fun q => q.WriteByte r.count.val) _
    (fun q h => bf_write.WriteByte_fits q _ (by simpa using h))
    (by simp [leBytes_length]; omega)
  beta_reduce at e3
  have hloop := BuildReplyPlayerPacket.loop_fits ops r.players r.count.val 0
    (w.Reset.emit ([] ++ leBytes 4 (toUnsigned 32 (-1)) ++ [byteOf (toUnsigned 8 68)]
      ++ [byteOf (toUnsigned 8 r.count.val)]))
    (by omega) (by simpa using hnames)
    (by
      rw [bf_write.emit_rest_length]
      simp only [List.drop_zero, List.length_append, List.length_cons, List.length_nil,
        leBytes_length]
      omega)
  rw [← e3] at hloop
  refine ⟨_, hloop, ?_⟩
  rw [e3]
  simp only [bf_write.emit, bf_write.Reset, List.nil_append, List.drop_zero,
    leBytes_minus_one, byteOf_toUnsigned_val, List.append_assoc, List.cons_append, List.enum]
  rfl

/-- Reading the returned table from position `i` on, when every entry has a name that
`GetString` can render: one player per entry, in the order of the table. -/
theorem CallPlayerHook.readPlayers_eq {D : Type} (ops : NumOps D)
    (entries : List (LuaTable PlayerField D)) (i : Nat)
    (h : ∀ e ∈ entries, (GetString ops (e PlayerField.name)).isSome = true) :
    CallPlayerHook.readPlayers ops i entries
      = some ((List.enumFrom i entries).map (fun ie =>
          { index := byteOf ie.1
            name := cstr ((GetString ops (ie.2 PlayerField.name)).getD [])
            score := GetNumber ops (ie.2 PlayerField.score)
            time := GetNumber ops (ie.2 PlayerField.time) })) := by
  induction entries generalizing i with
  | nil => rfl
  | cons e es ih =>
    obtain ⟨name, hname⟩ := Option.isSome_iff_exists.mp (h e (List.mem_cons_self _ _))
    have hrest := ih (i + 1) (fun e' he' => h e' (List.mem_cons_of_mem _ he'))
    simp only [CallPlayerHook.readPlayers, hname, hrest, Option.bind_eq_bind, Option.some_bind,
      Option.pure_def, List.enumFrom_cons, List.map_cons, Option.getD_some]

/-- The records of the players read from a table, in terms of the table entries. -/
theorem playerRecords_of_entries {D : Type} (ops : NumOps D)
    (entries : List (LuaTable PlayerField D)) (i k : Nat) :
    (List.enumFrom k ((List.enumFrom i entries).map (fun ie =>
        ({ index := byteOf ie.1
           name := cstr ((GetString ops (ie.2 PlayerField.name)).getD [])
           score := GetNumber ops (ie.2 PlayerField.score)
           time := GetNumber ops (ie.2 PlayerField.time) } : player_t D)))).flatMap (fun ip =>
        [byteOf ip.1] ++ (ip.2.name ++ [0]) ++ leBytes 4 (toUnsigned 32 (ops.toInt32 ip.2.score))
          ++ leBytes 4 (ops.toFloatBits ip.2.time))
      = (List.enumFrom k entries).flatMap (fun ie =>
        [byteOf ie.1] ++ (cstr ((GetString ops (ie.2 PlayerField.name)).getD []) ++ [0])
          ++ leBytes 4 (toUnsigned 32 (ops.toInt32 (GetNumber ops (ie.2 PlayerField.score))))
          ++ leBytes 4 (ops.toFloatBits (GetNumber ops (ie.2 PlayerField.time)))) := by
  induction entries generalizing i k with
  | nil => rfl
  | cons e es ih =>
    simp only [List.enumFrom_cons, List.map_cons, List.flatMap_cons]
    rw [ih (i + 1) (k + 1)]

/-- The size of the records of the players read from a table, in terms of the entries. -/
theorem playerRecordSize_of_entries {D : Type} (ops : NumOps D)
    (entries : List (LuaTable PlayerField D)) (i : Nat) :
    (((List.enumFrom i entries).map (fun ie =>
        ({ index := byteOf ie.1
           name := cstr ((GetString ops (ie.2 PlayerField.name)).getD [])
           score := GetNumber ops (ie.2 PlayerField.score)
           time := GetNumber ops (ie.2 PlayerField.time) } : player_t D))).map
        playerRecordSize).sum
      = (entries.map (fun e =>
          (cstr ((GetString ops (e PlayerField.name)).getD [])).length + 10)).sum := by
  induction entries generalizing i with
  | nil => rfl
  | cons e es ih =>
    simp only [List.enumFrom_cons, List.map_cons, List.sum_cons]
    rw [ih (i + 1)]
    have hc : cstr (cstr ((GetString ops (e PlayerField.name)).getD []))
        = cstr ((GetString ops (e PlayerField.name)).getD []) :=
      cstr_of_NulFree _ (NulFree_cstr _)
    simp only [playerRecordSize, hc]
    ring

/-- When the callback is reached and returns a table whose entries carry names, the players
are read from it, `BuildReplyPlayerPacket` returns, and what it left in the packet is sent
to the requester as one datagram. -/
theorem HandlePlayerQuery_of_table {D CM : Type} (ops : NumOps D) (env : Env D)
    (from_ : sockaddr_in) (s : State CM)
    (ht : env.lua.hook_is_table = true) (hf : env.lua.run_is_function = true)
    (h0 : env.indeterminate_count = 0) (entries : List (LuaTable PlayerField D))
    (hr : env.lua.run_player from_ = LuaReturn.table entries)
    (hnames : ∀ e ∈ entries, (GetString ops (e PlayerField.name)).isSome = true) :
    ∃ players pkt, CallPlayerHook.readPlayers ops 0 entries = some players
      ∧ BuildReplyPlayerPacket ops
          { dontsend := false, senddefault := false, count := byteOf entries.length,
            players := players } s.player_cache_packet = some pkt
      ∧ pkt.capacity = s.player_cache_packet.capacity
      ∧ HandlePlayerQuery ops env from_ s
          = some (PacketType.Invalid,
              { s with
                hook_calls := s.hook_calls + 1
                player_cache_packet := pkt
                sent := s.sent ++ [(from_, pkt.written)] }) := by
  have hc := CallPlayerHook_of_run ops env.lua from_ ht hf
  obtain ⟨players, hplayers, hlen⟩ := CallPlayerHook.readPlayers_total ops entries 0 hnames
  have hcount : (byteOf entries.length).val ≤ players.length := by
    rw [hlen]
    exact Nat.mod_le _ _
  obtain ⟨pkt, hpkt, hcap⟩ := BuildReplyPlayerPacket.loop_total ops players
    (byteOf entries.length).val 0
    (((s.player_cache_packet.Reset.WriteLong (-1)).WriteByte 68).WriteByte
      (byteOf entries.length).val) (by omega)
  refine ⟨players, pkt, hplayers, hpkt, ?_, ?_⟩
  · rw [hcap, bf_write.capacity_WriteByte, bf_write.capacity_WriteByte,
      bf_write.capacity_WriteLong, bf_write.capacity_Reset]
  · rw [hr] at hc
    simp only [hplayers] at hc
    unfold HandlePlayerQuery
    rw [h0]
    simp only [hc, Bool.false_eq_true, if_false]
    rw [show BuildReplyPlayerPacket ops
        { dontsend := false, senddefault := false, count := byteOf entries.length,
          players := players } s.player_cache_packet = some pkt from hpkt]

/-- C5, amended: the outcome of `HandlePlayerQuery` follows the callback. Without a `hook`
table or without an invokable `hook.Run` the result is Good and nothing is sent. When the
callback is reached, the uninitialised count of the fresh reply reading as 0: a returned
`false` gives Invalid and nothing is sent; a returned `true` or any value that is neither a
boolean nor a table gives Good and nothing is sent; a returned table whose entries carry
names gives Invalid and exactly one datagram goes to the requester, namely what
`BuildReplyPlayerPacket` leaves for the count byte (the length of the table modulo 256) and
the players read from the table; when the table has at most 255 entries and their encoding
fits the 1024-byte buffer, that datagram is the encoding of the players of the table:
FF FF FF FF, `'D'`, the number of entries, and for each entry in order its index, its name
with a 0 terminator, its score as 32-bit little-endian and the four bytes of its time. -/
theorem HandlePlayerQuery_outcomes {D CM : Type} (ops : NumOps D) (env : Env D)
    (from_ : sockaddr_in) (s : State CM) :
    let s1 : State CM := { s with hook_calls := s.hook_calls + 1 }
    ((env.lua.hook_is_table = false ∨ env.lua.run_is_function = false) →
        HandlePlayerQuery ops env from_ s = some (PacketType.Good, s1) ∧ s1.sent = s.sent)
    ∧ (env.lua.hook_is_table = true → env.lua.run_is_function = true →
        env.indeterminate_count = 0 →
        (env.lua.run_player from_ = LuaReturn.boolean false →
          HandlePlayerQuery ops env from_ s = some (PacketType.Invalid, s1) ∧ s1.sent = s.sent)
        ∧ (env.lua.run_player from_ = LuaReturn.boolean true
            ∨ env.lua.run_player from_ = LuaReturn.other →
          HandlePlayerQuery ops env from_ s = some (PacketType.Good, s1) ∧ s1.sent = s.sent)
        ∧ (∀ entries, env.lua.run_player from_ = LuaReturn.table entries →
          (∀ e ∈ entries, (GetString ops (e PlayerField.name)).isSome = true) →
          ∃ players pkt, CallPlayerHook.readPlayers ops 0 entries = some players
            ∧ BuildReplyPlayerPacket ops
                { dontsend := false, senddefault := false, count := byteOf entries.length,
                  players := players } s.player_cache_packet = some pkt
            ∧ HandlePlayerQuery ops env from_ s
                = some (PacketType.Invalid,
                    { s1 with
                      player_cache_packet := pkt
                      sent := s.sent ++ [(from_, pkt.written)] })
            ∧ (entries.length ≤ 255 → s.player_cache_packet.capacity = 1024 →
                6 + (entries.map (fun e =>
                  (cstr ((GetString ops (e PlayerField.name)).getD [])).length + 10)).sum ≤ 1024 →
                pkt.written = [0xFF, 0xFF, 0xFF, 0xFF, 68, byteOf entries.length]
                  ++ (List.enum entries).flatMap (fun ie =>
                    [byteOf ie.1]
                      ++ (cstr ((GetString ops (ie.2 PlayerField.name)).getD []) ++ [0])
                      ++ leBytes 4 (toUnsigned 32
                          (ops.toInt32 (GetNumber ops (ie.2 PlayerField.score))))
                      ++ leBytes 4 (ops.toFloatBits (GetNumber ops (ie.2 PlayerField.time))))))) := by
  intro s1
  refine ⟨?_, ?_⟩
  · intro h
    refine ⟨?_, rfl⟩
    have hc : CallPlayerHook ops env.lua env.indeterminate_count from_
        = some { dontsend := false, senddefault := true, count := env.indeterminate_count,
                 players := [] } := by
      unfold CallPlayerHook
      rcases h with h | h
      · simp only [h, Bool.not_false, if_true]
      · cases ht : env.lua.hook_is_table
        · simp only [Bool.not_false, if_true]
        · simp only [h, Bool.not_true, Bool.not_false, Bool.false_eq_true, if_false, if_true]
    unfold HandlePlayerQuery
    simp only [hc, if_true]
  · intro ht hf h0
    have hc := CallPlayerHook_of_run ops env.lua from_ ht hf
    refine ⟨?_, ?_, ?_⟩
    · intro hr
      refine ⟨?_, rfl⟩
      rw [hr] at hc
      unfold HandlePlayerQuery
      rw [h0]
      simp only [hc, Bool.not_false, if_true, Bool.false_eq_true, if_false]
    · intro hr
      refine ⟨?_, rfl⟩
      unfold HandlePlayerQuery
      rw [h0]
      rcases hr with hr | hr
      · rw [hr] at hc
        simp only [hc, Bool.not_true, Bool.false_eq_true, if_false, if_true]
      · rw [hr] at hc
        simp only [hc, if_true]
    · intro entries hr hnames
      obtain ⟨players, pkt, hplayers, hpkt, _, hq⟩ :=
        HandlePlayerQuery_of_table ops env from_ s ht hf h0 entries hr hnames
      refine ⟨players, pkt, hplayers, hpkt, hq, ?_⟩
      intro h255 hcap hfit
      have hpl := CallPlayerHook.readPlayers_eq ops entries 0 hnames
      rw [hplayers] at hpl
      have hpl := Option.some.inj hpl
      have hlen : players.length = entries.length := by
        rw [hpl, List.length_map, List.enumFrom_length]
      have hval : (byteOf entries.length).val = entries.length :=
        Nat.mod_eq_of_lt (Nat.lt_of_le_of_lt h255 (by decide))
      have htake : players.take (byteOf entries.length).val = players := by
        rw [hval, ← hlen, List.take_length]
      obtain ⟨p, hp, hw⟩ := BuildReplyPlayerPacket_fits ops
        { dontsend := false, senddefault := false, count := byteOf entries.length,
          players := players } s.player_cache_packet hcap
        (by rw [hval, hlen])
        (by
          intro q hq
          rw [htake, hpl] at hq
          obtain ⟨ie, _, hie⟩ := List.mem_map.mp hq
          rw [← hie]
          exact NulFree_cstr _)
        (by
          unfold replyPlayerSize
          rw [htake, hpl, playerRecordSize_of_entries]
          exact hfit)
      rw [hpkt] at hp
      rw [Option.some.inj hp, hw, htake, hpl, List.enum, playerRecords_of_entries]
      rfl

/-- When the bridge is available and the uninitialised count reads as anything but 0, the
loop that fills the roster argument reads past the end of the empty vector. -/
theorem CallPlayerHook_indeterminate_count :
    CallPlayerHook intOps (luaReturning LuaReturn.other (LuaReturn.boolean true)) 1 exampleAddr
      = none := by
  rfl

/-- A player query for which the uninitialised count reads as 1 never reaches a callback
that would return `false`: the roster loop before the call reads `players[0]` of an empty
vector. -/
theorem HandlePlayerQuery_indeterminate_count :
    HandlePlayerQuery intOps
        { exampleEnv with
          lua := luaReturning LuaReturn.other (LuaReturn.boolean false)
          indeterminate_count := 1 }
        exampleAddr (exampleStart false) = none := by
  rfl

set_option maxRecDepth 100000 in
/-- The table outcome of C5 at a returned roster of two players: one datagram of 28 bytes
goes to the requester and the query is handled. -/
theorem HandlePlayerQuery_outcomes_roster :
    ∃ s2, HandlePlayerQuery intOps
        { exampleEnv with lua := luaReturning LuaReturn.other (LuaReturn.table exampleRoster) }
        exampleAddr (exampleStart false) = some (PacketType.Invalid, s2)
      ∧ s2.sent = [(exampleAddr,
          [0xFF, 0xFF, 0xFF, 0xFF, 68, 2, 0, 97, 0, 7, 0, 0, 0, 0, 0, 0x80, 0x3F,
            1, 98, 0, 0, 0, 0, 0, 0, 0, 0, 0x40])] := by
  obtain ⟨players, pkt, hplayers, hpkt, hq, hlayout⟩ :=
    (HandlePlayerQuery_outcomes intOps
      { exampleEnv with lua := luaReturning LuaReturn.other (LuaReturn.table exampleRoster) }
      exampleAddr (exampleStart false)).2 rfl rfl rfl |>.2.2 exampleRoster rfl (by decide)
  have hw := hlayout (by decide) (bf_write.capacity_init 1024) (Nat.le_of_ble_eq_true rfl)
  refine ⟨_, hq, ?_⟩
  show [] ++ [(exampleAddr, pkt.written)] = _
  rw [hw]
  rfl

set_option maxRecDepth 100000 in
/-- C5, as stated, fails for a returned table whose players the datagram cannot carry. For a
table of 256 entries the count byte is 0 and the datagram sent is FF FF FF FF 44 00, without
any player. For a table of 102 entries with empty names the encoding takes 1026 bytes and
the datagram sent, cut off by the 1024-byte buffer, is not that encoding. -/
theorem HandlePlayerQuery_table_not_encoded :
    (exampleFullTable.length = 256
      ∧ ∃ s2, HandlePlayerQuery intOps
          { exampleEnv with lua := luaReturning LuaReturn.other (LuaReturn.table exampleFullTable) }
          exampleAddr (exampleStart false) = some (PacketType.Invalid, s2)
        ∧ s2.sent = [(exampleAddr, [0xFF, 0xFF, 0xFF, 0xFF, 68, 0])]
        ∧ [0xFF, 0xFF, 0xFF, 0xFF, 68, 0]
          ≠ [0xFF, 0xFF, 0xFF, 0xFF, 68, byteOf exampleFullTable.length]
            ++ (List.enum exampleFullTable).flatMap (fun ie =>
              [byteOf ie.1]
                ++ (cstr ((GetString intOps (ie.2 PlayerField.name)).getD []) ++ [0])
                ++ leBytes 4 (toUnsigned 32
                    (intOps.toInt32 (GetNumber intOps (ie.2 PlayerField.score))))
                ++ leBytes 4 (intOps.toFloatBits (GetNumber intOps (ie.2 PlayerField.time)))))
    ∧ (exampleCrowdTable.length = 102
      ∧ ∃ s2 d, HandlePlayerQuery intOps
          { exampleEnv with lua := luaReturning LuaReturn.other (LuaReturn.table exampleCrowdTable) }
          exampleAddr (exampleStart false) = some (PacketType.Invalid, s2)
        ∧ s2.sent = [(exampleAddr, d)]
        ∧ d ≠ [0xFF, 0xFF, 0xFF, 0xFF, 68, byteOf exampleCrowdTable.length]
            ++ (List.enum exampleCrowdTable).flatMap (fun ie =>
              [byteOf ie.1]
                ++ (cstr ((GetString intOps (ie.2 PlayerField.name)).getD []) ++ [0])
                ++ leBytes 4 (toUnsigned 32
                    (intOps.toInt32 (GetNumber intOps (ie.2 PlayerField.score))))
                ++ leBytes 4 (intOps.toFloatBits (GetNumber intOps (ie.2 PlayerField.time))))) := by
  refine ⟨⟨rfl, _, rfl, rfl, by decide⟩, rfl, ?_⟩
  have hnames : ∀ e ∈ exampleCrowdTable,
      (GetString intOps (e PlayerField.name)).isSome = true := by
    intro e he
    rw [List.eq_of_mem_replicate he]
    rfl
  obtain ⟨players, pkt, _, _, hcap, hq⟩ := HandlePlayerQuery_of_table intOps
    { exampleEnv with lua := luaReturning LuaReturn.other (LuaReturn.table exampleCrowdTable) }
    exampleAddr (exampleStart false) rfl rfl rfl exampleCrowdTable rfl hnames
  refine ⟨_, pkt.written, hq, rfl, ?_⟩
  intro h
  have hlen := congrArg List.length h
  have hrec : ((List.enum exampleCrowdTable).flatMap (fun ie =>
      [byteOf ie.1]
        ++ (cstr ((GetString intOps (ie.2 PlayerField.name)).getD []) ++ [0])
        ++ leBytes 4 (toUnsigned 32
            (intOps.toInt32 (GetNumber intOps (ie.2 PlayerField.score))))
        ++ leBytes 4 (intOps.toFloatBits (GetNumber intOps (ie.2 PlayerField.time))))).length
      = 1020 := by
    decide
  rw [List.length_append, hrec] at hlen
  have hcap2 : pkt.capacity = 1024 := by rw [hcap]; exact bf_write.capacity_init 1024
  unfold bf_write.capacity at hcap2
  simp only [List.length_cons, List.length_nil] at hlen
  omega

/-! ### The info hook bridge -/

/-- C6 as stated fails: a returned table that leaves out `players` does not keep the default
player count 3; the reply carries 0. -/
theorem CallInfoHook_absent_count_is_zero :
    ∃ r, CallInfoHook intOps (luaReturning (LuaReturn.table tableWithoutCounts) LuaReturn.other)
          exampleInfo exampleAddr = some r
      ∧ GetString intOps (tableWithoutCounts InfoField.players) = none
      ∧ exampleInfo.amt_clients = 3 ∧ r.amt_clients = 0 :=
  ⟨_, rfl, rfl, rfl, rfl⟩

/-- C6 (amended): for every default reply `d` and every returned table `t` in which `name`,
`map`, `folder`, `gamemode`, `servertype`, `os`, `steamid` and `tags` are strings,
`CallInfoHook` returns a reply in which every overridable field comes from `t`: the string
fields are the strings of `t` (their first character for `servertype` and `os`, the decimal
reading for `steamid`); `players`, `maxplayers`, `bots` and `gameport` are the number in `t`
converted to `int32_t` when present and 0 when absent; `passworded` and `VAC` are the boolean
in `t` when present and false when absent. The version and the app id stay at their
defaults and `dontsend` is clear. -/
theorem CallInfoHook_table_fields {D : Type} (ops : NumOps D) (lua : Lua D) (d : reply_info_t)
    (from_ : sockaddr_in) (t : LuaTable InfoField D)
    (name map folder gamemode servertype os steamid tags : List Byte)
    (htable : lua.hook_is_table = true) (hrun : lua.run_is_function = true)
    (hret : lua.run_info from_ d = LuaReturn.table t)
    (hname : t InfoField.name = LuaValue.string name)
    (hmap : t InfoField.map = LuaValue.string map)
    (hfolder : t InfoField.folder = LuaValue.string folder)
    (hgamemode : t InfoField.gamemode = LuaValue.string gamemode)
    (hservertype : t InfoField.servertype = LuaValue.string servertype)
    (hos : t InfoField.os = LuaValue.string os)
    (hsteamid : t InfoField.steamid = LuaValue.string steamid)
    (htags : t InfoField.tags = LuaValue.string tags) :
    ∃ r, CallInfoHook ops lua d from_ = some r
      ∧ r.game_name = cstr name ∧ r.map_name = cstr map ∧ r.game_dir = cstr folder
      ∧ r.gamemode_name = cstr gamemode
      ∧ r.server_type = servertype.getD 0 0 ∧ r.os_type = os.getD 0 0
      ∧ r.steamid = toUnsigned 64 (strtoll (cstr steamid)) ∧ r.tags = cstr tags
      ∧ (∀ x, t InfoField.players = LuaValue.number x → r.amt_clients = ops.toInt32 x)
      ∧ (t InfoField.players = LuaValue.nil → r.amt_clients = 0)
      ∧ (∀ x, t InfoField.maxplayers = LuaValue.number x → r.max_clients = ops.toInt32 x)
      ∧ (t InfoField.maxplayers = LuaValue.nil → r.max_clients = 0)
      ∧ (∀ x, t InfoField.bots = LuaValue.number x → r.amt_bots = ops.toInt32 x)
      ∧ (t InfoField.bots = LuaValue.nil → r.amt_bots = 0)
      ∧ (∀ x, t InfoField.gameport = LuaValue.number x → r.udp_port = ops.toInt32 x)
      ∧ (t InfoField.gameport = LuaValue.nil → r.udp_port = 0)
      ∧ (∀ b, t InfoField.passworded = LuaValue.boolean b → r.passworded = b)
      ∧ (t InfoField.passworded = LuaValue.nil → r.passworded = false)
      ∧ (∀ b, t InfoField.VAC = LuaValue.boolean b → r.secure = b)
      ∧ (t InfoField.VAC = LuaValue.nil → r.secure = false)
      ∧ r.game_version = d.game_version ∧ r.appid = d.appid ∧ r.dontsend = false := by
  have hnum : ∀ f x, t f = LuaValue.number x → ops.toInt32 (GetNumber ops (t f)) = ops.toInt32 x :=
    fun f x h => by rw [h]; rfl
  have hnil : ∀ f, t f = LuaValue.nil → ops.toInt32 (GetNumber ops (t f)) = 0 :=
    fun f h => by rw [h]; exact ops.toInt32_zero
  have hbool : ∀ f b, t f = LuaValue.boolean b → GetBool (t f) = b :=
    fun f b h => by rw [h]; rfl
  have hbnil : ∀ f, t f = LuaValue.nil → GetBool (t f) = false :=
    fun f h => by rw [h]; rfl
  have hcall : CallInfoHook ops lua d from_ = some
      { dontsend := false
        game_name := cstr name
        map_name := cstr map
        game_dir := cstr folder
        gamemode_name := cstr gamemode
        amt_clients := ops.toInt32 (GetNumber ops (t InfoField.players))
        max_clients := ops.toInt32 (GetNumber ops (t InfoField.maxplayers))
        amt_bots := ops.toInt32 (GetNumber ops (t InfoField.bots))
        server_type := servertype.getD 0 0
        os_type := os.getD 0 0
        passworded := GetBool (t InfoField.passworded)
        secure := GetBool (t InfoField.VAC)
        game_version := d.game_version
        udp_port := ops.toInt32 (GetNumber ops (t InfoField.gameport))
        tags := cstr tags
        appid := d.appid
        steamid := toUnsigned 64 (strtoll (cstr steamid)) } := by
    unfold CallInfoHook
    simp only [htable, hrun, hret, hname, hmap, hfolder, hgamemode, hservertype, hos, hsteamid,
      htags, GetString, Bool.not_true, Bool.false_eq_true, if_false, Option.bind_eq_bind,
      Option.some_bind, Option.pure_def]
  exact ⟨_, hcall, rfl, rfl, rfl, rfl, rfl, rfl, rfl, rfl, hnum _, hnil _, hnum _, hnil _,
    hnum _, hnil _, hnum _, hnil _, hbool _, hbnil _, hbool _, hbnil _, rfl, rfl, rfl⟩

/-- The amended C6 at the table that leaves out the counts and the port. -/
theorem CallInfoHook_table_fields_example :
    ∃ r, CallInfoHook intOps (luaReturning (LuaReturn.table tableWithoutCounts) LuaReturn.other)
          exampleInfo exampleAddr = some r
      ∧ r.game_name = [88] ∧ r.steamid = 42 ∧ r.amt_clients = 0 ∧ r.passworded = true
      ∧ r.game_version = exampleInfo.game_version := by
  obtain ⟨r, hr, h1, _, _, _, _, _, h7, _, _, h10, _, _, _, _, _, _, h17, _, _, _, h21, _, _⟩ :=
    CallInfoHook_table_fields intOps
      (luaReturning (LuaReturn.table tableWithoutCounts) LuaReturn.other) exampleInfo exampleAddr
      tableWithoutCounts [88] [89] [90] [87] [100] [108] [52, 50] [] rfl rfl rfl rfl rfl rfl rfl
      rfl rfl rfl rfl
  exact ⟨r, hr, h1, h7, h10 rfl, h17 true rfl, h21⟩

/-! ### The reply cache -/

set_option maxRecDepth 100000 in
/-- C8 on the code: from the initial state (last rebuild time 0, no rebuild yet) a first read
at time 3 with the cache on is answered, and the reply is the encoding of the start-up
record, with an empty server name and map, while the number of rebuilds is still 0. -/
theorem SendInfoCache_first_read_never_rebuilt :
    ∃ s1, SendInfoCache intOps { exampleEnv with plat_time := 3 } exampleAddr 3 (exampleStart true)
        = some (PacketType.Invalid, s1)
      ∧ (exampleStart true).info_cache_last_update = 0
      ∧ (exampleStart true).info_cache_time = 5
      ∧ (exampleStart true).rebuilds = 0
      ∧ s1.rebuilds = 0
      ∧ s1.sent = [(exampleAddr,
          (BuildReplyInfoPacket (BuildStaticReplyInfo exampleStaticHost reply_info_zero)
            (bf_write.init 1024)).written)]
      ∧ (BuildReplyInfoPacket (BuildStaticReplyInfo exampleStaticHost reply_info_zero)
            (bf_write.init 1024)).written.take 8 = [0xFF, 0xFF, 0xFF, 0xFF, 73, 17, 0, 0] :=
  ⟨_, rfl, rfl, rfl, rfl, rfl, rfl, rfl⟩

/-- For every host and state, the record `BuildReplyInfo` leaves has the password flag in
`amt_bots`, and `passworded`, `server_type` and `os_type` as they were before. -/
theorem BuildReplyInfo_record {CM : Type} (host : Host) (s : State CM) :
    (BuildReplyInfo host s).reply_info.amt_bots = (if host.password.isSome then 1 else 0)
      ∧ (BuildReplyInfo host s).reply_info.passworded = s.reply_info.passworded
      ∧ (BuildReplyInfo host s).reply_info.server_type = s.reply_info.server_type
      ∧ (BuildReplyInfo host s).reply_info.os_type = s.reply_info.os_type :=
  ⟨rfl, rfl, rfl, rfl⟩

set_option maxRecDepth 100000 in
/-- C9 on the code: on a host with three bots and no password, a rebuild followed by the
reply to a requester without any hook sends the encoding of the record, which differs from
the packet `BuildReplyInfo` itself wrote: the record carries 0 bots (the password flag was
stored there), and its server type and OS type were never set, where the packet of
`BuildReplyInfo` has 3, `'d'` and `'l'`. -/
theorem SendInfoCache_reply_differs_from_rebuild_packet :
    ∃ s1 b, SendInfoCache intOps exampleEnv exampleAddr 100 (exampleStart true)
        = some (PacketType.Invalid, s1)
      ∧ s1.rebuilds = 1
      ∧ s1.sent = [(exampleAddr, b)]
      ∧ b = (BuildReplyInfoPacket (BuildReplyInfo exampleHost (exampleStart true)).reply_info
              (BuildReplyInfo exampleHost (exampleStart true)).info_cache_packet).written
      ∧ b ≠ (BuildReplyInfo exampleHost (exampleStart true)).info_cache_packet.written
      ∧ ((BuildReplyInfo exampleHost (exampleStart true)).info_cache_packet.written.drop 18).take 4
          = [5, 16, 3, 100]
      ∧ (b.drop 18).take 4 = [5, 16, 0, 0]
      ∧ exampleHost.num_fake_clients = 3
      ∧ (BuildReplyInfo exampleHost (exampleStart true)).reply_info.amt_bots = 0
      ∧ (BuildReplyInfo exampleHost (exampleStart true)).reply_info.server_type = 0 :=
  ⟨_, _, rfl, rfl, rfl, rfl, by decide, rfl, rfl, rfl, rfl, rfl⟩

/-! ### Ordinary game packets -/

theorem ClassifyPacket_ordinary (d : List Byte) (hlen : 4 ≤ d.length)
    (hsplit : readInt32LE d ≠ -2) (hsingle : readInt32LE d ≠ -1) :
    ClassifyPacket d d.length = PacketType.Good := by
  unfold ClassifyPacket
  have h0 : ¬ ((d.length : Int) = 0) := by omega
  simp only [h0, if_false, hsplit, hsingle, ne_eq, not_false_eq_true, if_true, ite_self]

theorem drain_queue {CM : Type} (q : List packet_t) (back : List packet_t)
    (calls : List (Nat × Nat)) (s : State CM) (hq : s.threaded_socket_queue = q ++ back)
    (hcalls : calls.length = q.length) : (drain calls s).threaded_socket_queue = back := by
  induction calls generalizing q s with
  | nil =>
    have : q = [] := List.length_eq_zero.mp hcalls.symm
    rw [this] at hq
    exact hq
  | cons c calls ih =>
    cases q with
    | nil => simp at hcalls
    | cons front q =>
      have hstep : (recvfrom_detour true none c.1 c.2 s).2.threaded_socket_queue = q ++ back := by
        unfold recvfrom_detour PopPacketFromQueue
        simp only [Bool.not_true, Bool.false_eq_true, if_false, hq, List.cons_append]
      unfold drain
      rw [List.foldl_cons]
      exact ih q _ hstep (by simpa using hcalls)

/-- C10 as stated fails: an ordinary packet of five bytes is enqueued, but a caller that
passes a buffer of two bytes gets the length 2 and the first two bytes. -/
theorem recvfrom_detour_short_buffer :
    PacketReceiverThread.step intOps admitAll exampleEnv (some (fun _ => some exampleGamePacket))
        true (exampleStart false) = some (PushPacketToQueue exampleGamePacket (exampleStart false))
      ∧ exampleGamePacket.buffer.length = 5
      ∧ (recvfrom_detour true none 2 16
          (PushPacketToQueue exampleGamePacket (exampleStart false))).1
        = { ret := 2, buf := [0, 0], addr := exampleAddr, fromlen := 16 } :=
  ⟨rfl, rfl, rfl⟩

/-- C10 (amended): for every datagram `p` whose header is neither -1 nor -2, whatever the
cache, the rate limiter and the Lua side are, a receiver step that reads `p` enqueues it at
the back and sends nothing and calls no hook; after as many calls of `recvfrom_detour` as
there were datagrams ahead of it, `p` is at the front; and a call of `recvfrom_detour` that
finds `p` at the front with a buffer of at least `p.buffer.length` bytes and an address
length of at least `p.address_size` returns the length of `p`, its bytes and its address. -/
theorem ordinary_packet_passes_through {D CM : Type} (ops : NumOps D)
    (CheckIPRate : CM → Nat → Nat → Bool × CM) (env : Env D)
    (recvfrom : Nat → Option packet_t) (p : packet_t) (s : State CM)
    (hlen : 4 ≤ p.buffer.length)
    (hsplit : readInt32LE p.buffer ≠ -2) (hsingle : readInt32LE p.buffer ≠ -1)
    (hroom : IsPacketQueueFull s = false)
    (hrecv : recvfrom threaded_socket_max_buffer = some p) :
    PacketReceiverThread.step ops CheckIPRate env (some recvfrom) true s
        = some (PushPacketToQueue p s)
      ∧ (PushPacketToQueue p s).threaded_socket_queue = s.threaded_socket_queue ++ [p]
      ∧ (PushPacketToQueue p s).sent = s.sent
      ∧ (PushPacketToQueue p s).hook_calls = s.hook_calls
      ∧ (∀ calls : List (Nat × Nat), calls.length = s.threaded_socket_queue.length →
          (drain calls (PushPacketToQueue p s)).threaded_socket_queue = [p])
      ∧ (∀ (t : State CM) (rest : List packet_t) (trampoline : Trampoline) (buflen fromlen : Nat),
          t.threaded_socket_queue = p :: rest → p.buffer.length ≤ buflen →
          p.address_size ≤ fromlen →
          recvfrom_detour true trampoline buflen fromlen t
            = ({ ret := p.buffer.length, buf := p.buffer,
                 addr := p.address.take p.address_size, fromlen := p.address_size },
               { t with threaded_socket_queue := rest })) := by
  have hgood := ClassifyPacket_ordinary p.buffer hlen hsplit hsingle
  refine ⟨?_, rfl, rfl, rfl, ?_, ?_⟩
  · have hra : ReceiveAndAnalyzePacket ops CheckIPRate env (some recvfrom)
        threaded_socket_max_buffer s = some (some p, s) := by
      unfold ReceiveAndAnalyzePacket
      simp only [hrecv, hgood]
      rfl
    unfold PacketReceiverThread.step
    simp only [hroom, hra, Bool.false_eq_true, if_false, Bool.not_true, List.take_length]
  · intro calls hcalls
    exact drain_queue s.threaded_socket_queue [p] calls _ rfl hcalls
  · intro t rest trampoline buflen fromlen ht hbuf haddr
    unfold recvfrom_detour PopPacketFromQueue
    simp only [Bool.not_true, Bool.false_eq_true, if_false, ht, Nat.min_eq_left hbuf,
      Nat.min_eq_right haddr, List.take_length]

/-- The amended C10 at the five-byte game packet and a caller buffer of 1500 bytes. -/
theorem ordinary_packet_passes_through_example :
    PacketReceiverThread.step intOps admitAll exampleEnv (some (fun _ => some exampleGamePacket))
        true (exampleStart false) = some (PushPacketToQueue exampleGamePacket (exampleStart false))
      ∧ (recvfrom_detour true none 1500 16
          (PushPacketToQueue exampleGamePacket (exampleStart false))).1
        = { ret := 5, buf := [0, 0, 0, 0, 7], addr := exampleAddr, fromlen := 16 } := by
  obtain ⟨h1, _, _, _, _, h6⟩ := ordinary_packet_passes_through intOps admitAll exampleEnv
    (fun _ => some exampleGamePacket) exampleGamePacket (exampleStart false)
    (by decide) (by decide) (by decide) rfl rfl
  refine ⟨h1, ?_⟩
  rw [h6 (PushPacketToQueue exampleGamePacket (exampleStart false)) [] none 1500 16 rfl
    (by decide) (by decide)]
  rfl

/-! ### The split-packet header -/

/-- The four bytes FE FF FF FF read as the header -2. -/
theorem readInt32LE_split (d : List Byte) (h : d.take 4 = [254, 255, 255, 255]) :
    readInt32LE d = -2 := by
  match d, h with
  | b0 :: b1 :: b2 :: b3 :: rest, h =>
    simp only [List.take, List.cons.injEq, and_true] at h
    obtain ⟨h0, h1, h2, h3⟩ := h
    subst h0 h1 h2 h3
    simp only [readInt32LE, List.getD_cons_zero, List.getD_cons_succ]
    decide

/-- C11 as stated fails: the input that is exactly the four bytes FE FF FF FF is classified
Good, because inputs shorter than five bytes are passed on before the header is read. -/
theorem ClassifyPacket_split_header_of_four_bytes :
    exampleSplitHeader.take 4 = [254, 255, 255, 255]
      ∧ toSigned 32 (leValue (exampleSplitHeader.take 4)) = -2
      ∧ ClassifyPacket exampleSplitHeader exampleSplitHeader.length = PacketType.Good := by
  decide

/-- C11 (amended): for every input of at least five bytes whose first four bytes are the
split-packet header (FE FF FF FF, the little-endian signed 32-bit value -2),
`ClassifyPacket` returns Invalid, whatever follows. -/
theorem ClassifyPacket_split_header (d : List Byte) (hlen : 5 ≤ d.length)
    (hsplit : d.take 4 = [254, 255, 255, 255]) :
    ClassifyPacket d d.length = PacketType.Invalid := by
  have hread := readInt32LE_split d hsplit
  unfold ClassifyPacket
  have h0 : ¬ ((d.length : Int) = 0) := by omega
  have h5 : ¬ ((d.length : Int) < 5) := by omega
  simp only [h0, h5, if_false, hread, if_true]

/-- The amended C11 at the split-packet header followed by `'T'` and one more byte. -/
theorem ClassifyPacket_split_header_example :
    ClassifyPacket [254, 255, 255, 255, 84, 0] ([254, 255, 255, 255, 84, 0] : List Byte).length
      = PacketType.Invalid :=
  ClassifyPacket_split_header [254, 255, 255, 255, 84, 0] (by decide) (by decide)

/-! ### The packet queue -/

theorem SendInfoCache_queue {D CM : Type} (ops : NumOps D) (env : Env D) (from_ : sockaddr_in)
    (time : Nat) (s s1 : State CM) (r : PacketType)
    (h : SendInfoCache ops env from_ time s = some (r, s1)) :
    s1.threaded_socket_queue = s.threaded_socket_queue := by
  have hq : (SendInfoCache.refresh env.host time s).threaded_socket_queue
      = s.threaded_socket_queue := by
    unfold SendInfoCache.refresh
    split <;> rfl
  unfold SendInfoCache at h
  simp only [] at h
  split at h
  · exact absurd h (by simp)
  · split at h
    · simp only [Option.some.injEq, Prod.mk.injEq] at h
      rw [← h.2]
      exact hq
    · simp only [Option.some.injEq, Prod.mk.injEq] at h
      rw [← h.2]
      exact hq

theorem HandleInfoQuery_queue {D CM : Type} (ops : NumOps D)
    (CheckIPRate : CM → Nat → Nat → Bool × CM) (env : Env D) (from_ : sockaddr_in)
    (s s1 : State CM) (r : PacketType)
    (h : HandleInfoQuery ops CheckIPRate env from_ s = some (r, s1)) :
    s1.threaded_socket_queue = s.threaded_socket_queue := by
  unfold HandleInfoQuery at h
  simp only [] at h
  split at h
  · simp only [Option.some.injEq, Prod.mk.injEq] at h
    rw [← h.2]
  · split at h
    · have := SendInfoCache_queue ops env from_ _ _ s1 r h
      exact this
    · simp only [Option.some.injEq, Prod.mk.injEq] at h
      rw [← h.2]

theorem HandlePlayerQuery_queue {D CM : Type} (ops : NumOps D) (env : Env D)
    (from_ : sockaddr_in) (s s1 : State CM) (r : PacketType)
    (h : HandlePlayerQuery ops env from_ s = some (r, s1)) :
    s1.threaded_socket_queue = s.threaded_socket_queue := by
  unfold HandlePlayerQuery at h
  simp only [] at h
  split at h
  · exact absurd h (by simp)
  · split at h
    · simp only [Option.some.injEq, Prod.mk.injEq] at h
      rw [← h.2]
    · split at h
      · simp only [Option.some.injEq, Prod.mk.injEq] at h
        rw [← h.2]
      · split at h
        · exact absurd h (by simp)
        · simp only [Option.some.injEq, Prod.mk.injEq] at h
          rw [← h.2]

/-- Analysing a datagram, hooks and replies included, leaves the queue alone. -/
theorem ReceiveAndAnalyzePacket_queue {D CM : Type} (ops : NumOps D)
    (CheckIPRate : CM → Nat → Nat → Bool × CM) (env : Env D) (trampoline : Trampoline)
    (buflen : Nat) (s s1 : State CM) (r : Option packet_t)
    (h : ReceiveAndAnalyzePacket ops CheckIPRate env trampoline buflen s = some (r, s1)) :
    s1.threaded_socket_queue = s.threaded_socket_queue := by
  unfold ReceiveAndAnalyzePacket at h
  split at h
  · simp only [Option.some.injEq, Prod.mk.injEq] at h
    rw [← h.2]
  · split at h
    · simp only [Option.some.injEq, Prod.mk.injEq] at h
      rw [← h.2]
    · rename_i p _
      simp only [] at h
      split at h
      · exact absurd h (by simp)
      · rename_i type1 sa hinfo
        have hqa : sa.threaded_socket_queue = s.threaded_socket_queue := by
          split at hinfo
          · exact HandleInfoQuery_queue ops CheckIPRate env p.address s sa type1 hinfo
          · simp only [Option.some.injEq, Prod.mk.injEq] at hinfo
            rw [← hinfo.2]
        split at h
        · exact absurd h (by simp)
        · rename_i type2 sb hplayer
          have hqb : sb.threaded_socket_queue = sa.threaded_socket_queue := by
            split at hplayer
            · exact HandlePlayerQuery_queue ops env p.address sa sb type2 hplayer
            · simp only [Option.some.injEq, Prod.mk.injEq] at hplayer
              rw [← hplayer.2]
          split at h
          · simp only [Option.some.injEq, Prod.mk.injEq] at h
            rw [← h.2, hqb, hqa]
          · simp only [Option.some.injEq, Prod.mk.injEq] at h
            rw [← h.2, hqb, hqa]

/-- What one action does to the queue and to the ghost history. -/
theorem QueueSystem.step_queue {D CM : Type} (ops : NumOps D)
    (CheckIPRate : CM → Nat → Nat → Bool × CM) (a : QueueAction D) (σ σ1 : QueueSystem CM)
    (h : QueueSystem.step ops CheckIPRate a σ = some σ1) :
    match a with
    | QueueAction.check =>
      σ.receiver_may_push = false
        ∧ σ1.receiver_may_push = !IsPacketQueueFull σ.state
        ∧ σ1.state.threaded_socket_queue = σ.state.threaded_socket_queue
        ∧ σ1.pushed = σ.pushed ∧ σ1.popped = σ.popped
    | QueueAction.receive _ _ _ =>
      σ.receiver_may_push = true ∧ σ1.receiver_may_push = false ∧ σ1.popped = σ.popped
        ∧ ((σ1.state.threaded_socket_queue = σ.state.threaded_socket_queue
              ∧ σ1.pushed = σ.pushed)
            ∨ ∃ p, σ1.state.threaded_socket_queue = σ.state.threaded_socket_queue ++ [p]
              ∧ σ1.pushed = σ.pushed ++ [p])
    | QueueAction.pop =>
      σ1.receiver_may_push = σ.receiver_may_push ∧ σ1.pushed = σ.pushed
        ∧ ((σ.state.threaded_socket_queue = [] ∧ σ1.state.threaded_socket_queue = []
              ∧ σ1.popped = σ.popped)
            ∨ ∃ p rest, σ.state.threaded_socket_queue = p :: rest
              ∧ σ1.state.threaded_socket_queue = rest ∧ σ1.popped = σ.popped ++ [p]) := by
  cases a with
  | check =>
    simp only [QueueSystem.step] at h
    split at h
    · exact absurd h (by simp)
    · rename_i hm
      simp only [Option.some.injEq] at h
      subst h
      exact ⟨by simpa using hm, rfl, rfl, rfl, rfl⟩
  | receive env trampoline readable =>
    simp only [QueueSystem.step] at h
    split at h
    · exact absurd h (by simp)
    · rename_i hm
      have hm1 : σ.receiver_may_push = true := by simpa using hm
      split at h
      · simp only [Option.some.injEq] at h
        subst h
        exact ⟨hm1, rfl, rfl, Or.inl ⟨rfl, rfl⟩⟩
      · split at h
        · exact absurd h (by simp)
        · rename_i s hra
          have hq := ReceiveAndAnalyzePacket_queue ops CheckIPRate env trampoline _ _ _ _ hra
          simp only [Option.some.injEq] at h
          subst h
          exact ⟨hm1, rfl, rfl, Or.inl ⟨hq, rfl⟩⟩
        · rename_i received s hra
          have hq := ReceiveAndAnalyzePacket_queue ops CheckIPRate env trampoline _ _ _ _ hra
          simp only [Option.some.injEq] at h
          subst h
          refine ⟨hm1, rfl, rfl, Or.inr ⟨_, ?_, rfl⟩⟩
          show s.threaded_socket_queue ++ _ = _
          rw [hq]
  | pop =>
    simp only [QueueSystem.step, PopPacketFromQueue] at h
    cases hq : σ.state.threaded_socket_queue with
    | nil =>
      rw [hq] at h
      simp only [Option.some.injEq] at h
      subst h
      exact ⟨rfl, rfl, Or.inl ⟨rfl, hq, rfl⟩⟩
    | cons p rest =>
      rw [hq] at h
      simp only [Option.some.injEq] at h
      subst h
      exact ⟨rfl, rfl, Or.inr ⟨p, rest, rfl, rfl, rfl⟩⟩

theorem QueueSystem.step_Inv {D CM : Type} (ops : NumOps D)
    (CheckIPRate : CM → Nat → Nat → Bool × CM) (a : QueueAction D) (σ σ1 : QueueSystem CM)
    (hinv : σ.Inv) (h : QueueSystem.step ops CheckIPRate a σ = some σ1) : σ1.Inv := by
  have hs := QueueSystem.step_queue ops CheckIPRate a σ σ1 h
  obtain ⟨hle, hlt, hfifo⟩ := hinv
  cases a with
  | check =>
    obtain ⟨_, hm, hq, hpu, hpo⟩ := hs
    refine ⟨by rw [hq]; exact hle, ?_, by rw [hpu, hpo, hq]; exact hfifo⟩
    intro hm1
    rw [hm] at hm1
    rw [hq]
    simpa [IsPacketQueueFull] using hm1
  | receive env trampoline readable =>
    obtain ⟨hm, hm1, hpo, hcase⟩ := hs
    have hlt1 := hlt hm
    rcases hcase with ⟨hq, hpu⟩ | ⟨p, hq, hpu⟩
    · exact ⟨by rw [hq]; exact hle, by rw [hm1]; intro hc; exact absurd hc (by decide),
        by rw [hpu, hpo, hq]; exact hfifo⟩
    · refine ⟨?_, by rw [hm1]; intro hc; exact absurd hc (by decide), ?_⟩
      · rw [hq, List.length_append]
        simp only [List.length_cons, List.length_nil]
        omega
      · rw [hpu, hpo, hq, hfifo, List.append_assoc]
  | pop =>
    obtain ⟨hm, hpu, hcase⟩ := hs
    rcases hcase with ⟨hq0, hq, hpo⟩ | ⟨p, rest, hq0, hq, hpo⟩
    · refine ⟨by rw [hq]; simp, ?_, by rw [hpu, hpo, hq, hfifo, hq0]⟩
      intro _
      rw [hq]
      simp [threaded_socket_max_queue]
    · rw [hq0] at hle hlt hfifo
      simp only [List.length_cons] at hle hlt
      refine ⟨by rw [hq]; omega, ?_, ?_⟩
      · intro hm1
        rw [hm] at hm1
        have := hlt hm1
        rw [hq]
        omega
      · rw [hpu, hpo, hq, hfifo]
        simp

theorem QueueSystem.run_Inv {D CM : Type} (ops : NumOps D)
    (CheckIPRate : CM → Nat → Nat → Bool × CM) (actions : List (QueueAction D))
    (σ σ1 : QueueSystem CM) (hinv : σ.Inv)
    (h : QueueSystem.run ops CheckIPRate actions σ = some σ1) : σ1.Inv := by
  induction actions generalizing σ with
  | nil =>
    simp only [QueueSystem.run, Option.some.injEq] at h
    subst h
    exact hinv
  | cons a rest ih =>
    simp only [QueueSystem.run] at h
    split at h
    · exact absurd h (by simp)
    · rename_i σ2 hstep
      exact ih σ2 (QueueSystem.step_Inv ops CheckIPRate a σ σ2 hinv hstep) h

/-- The loop body `PacketReceiverThread.step` is the test followed, when the queue is not
full, by the rest of the iteration. -/
theorem PacketReceiverThread.step_eq_check_receive {D CM : Type} (ops : NumOps D)
    (CheckIPRate : CM → Nat → Nat → Bool × CM) (env : Env D) (trampoline : Trampoline)
    (readable : Bool) (s : State CM) :
    PacketReceiverThread.step ops CheckIPRate env trampoline readable s
      = (if IsPacketQueueFull s then
          QueueSystem.run ops CheckIPRate [QueueAction.check] (QueueSystem.start s)
        else
          QueueSystem.run ops CheckIPRate
            [QueueAction.check, QueueAction.receive env trampoline readable]
            (QueueSystem.start s)).map (fun σ => σ.state) := by
  unfold PacketReceiverThread.step
  cases hfull : IsPacketQueueFull s
  · simp only [Bool.false_eq_true, if_false, QueueSystem.run, QueueSystem.step,
      QueueSystem.start, hfull, Bool.not_false, Bool.not_true]
    cases readable
    · rfl
    · simp only [Bool.not_true, Bool.false_eq_true, if_false]
      cases ReceiveAndAnalyzePacket ops CheckIPRate env trampoline threaded_socket_max_buffer s with
      | none => rfl
      | some r =>
        obtain ⟨r1, s1⟩ := r
        cases r1 <;> rfl
  · simp only [if_true, QueueSystem.run, QueueSystem.step, QueueSystem.start, hfull,
      Bool.false_eq_true, if_false, Bool.not_true]
    rfl

/-- C12: in every state reached from an empty queue by any interleaving of the receiver's
actions (the test `IsPacketQueueFull`, then the rest of the iteration, which pushes only
after a test that found room) and the consumer's pops, the queue holds at most 1000
datagrams and is exactly what was pushed and not yet popped, in the order of the pushes. In
such a state a receiver action leaves the queued datagrams in place (the test changes
nothing, the rest of the iteration at most appends one datagram at the back), a pop on a
non-empty queue returns its front, which is the oldest datagram pushed and not yet popped,
and a pop on an empty queue returns false and changes nothing. -/
theorem packet_queue_bounded_fifo {D CM : Type} (ops : NumOps D)
    (CheckIPRate : CM → Nat → Nat → Bool × CM) (actions : List (QueueAction D))
    (s : State CM) (σ : QueueSystem CM) (hempty : s.threaded_socket_queue = [])
    (hrun : QueueSystem.run ops CheckIPRate actions (QueueSystem.start s) = some σ) :
    σ.state.threaded_socket_queue.length ≤ 1000
      ∧ σ.pushed = σ.popped ++ σ.state.threaded_socket_queue
      ∧ (∀ σ1, QueueSystem.step ops CheckIPRate QueueAction.check σ = some σ1 →
          σ1.state.threaded_socket_queue = σ.state.threaded_socket_queue)
      ∧ (∀ env trampoline readable σ1,
          QueueSystem.step ops CheckIPRate (QueueAction.receive env trampoline readable) σ
            = some σ1 →
          σ1.state.threaded_socket_queue = σ.state.threaded_socket_queue
            ∨ ∃ p, σ1.state.threaded_socket_queue = σ.state.threaded_socket_queue ++ [p])
      ∧ (∀ p rest, σ.state.threaded_socket_queue = p :: rest →
          PopPacketFromQueue σ.state = (some p, { σ.state with threaded_socket_queue := rest })
            ∧ σ.pushed = σ.popped ++ p :: rest)
      ∧ (σ.state.threaded_socket_queue = [] → PopPacketFromQueue σ.state = (none, σ.state)) := by
  have hstart : (QueueSystem.start s).Inv := by
    refine ⟨?_, ?_, ?_⟩
    · show s.threaded_socket_queue.length ≤ _
      rw [hempty]
      exact Nat.zero_le _
    · intro hc
      exact absurd (show false = true from hc) (by decide)
    · show ([] : List packet_t) = [] ++ s.threaded_socket_queue
      rw [hempty]
      rfl
  obtain ⟨hle, _, hfifo⟩ := QueueSystem.run_Inv ops CheckIPRate actions _ σ hstart hrun
  refine ⟨hle, hfifo, ?_, ?_, ?_, ?_⟩
  · intro σ1 h1
    exact (QueueSystem.step_queue ops CheckIPRate QueueAction.check σ σ1 h1).2.2.1
  · intro env trampoline readable σ1 h1
    obtain ⟨_, _, _, hcase⟩ :=
      QueueSystem.step_queue ops CheckIPRate (QueueAction.receive env trampoline readable) σ σ1 h1
    rcases hcase with ⟨hq, _⟩ | ⟨p, hq, _⟩
    · exact Or.inl hq
    · exact Or.inr ⟨p, hq⟩
  · intro p rest hq
    refine ⟨?_, by rw [hfifo, hq]⟩
    unfold PopPacketFromQueue
    rw [hq]
  · intro hq
    unfold PopPacketFromQueue
    rw [hq]

/-- C12 at a run in which the receiver enqueues two datagrams and the consumer pops one:
the queue is within its bound, one datagram is left and the first one pushed is the one
popped. -/
theorem packet_queue_bounded_fifo_example :
    ∃ σ, QueueSystem.run intOps admitAll exampleActions (QueueSystem.start (exampleStart false))
          = some σ
      ∧ σ.state.threaded_socket_queue.length ≤ 1000
      ∧ σ.pushed = σ.popped ++ σ.state.threaded_socket_queue
      ∧ σ.pushed = [exampleGamePacket, exampleInfoQuery]
      ∧ σ.popped = [exampleGamePacket] := by
  refine ⟨_, rfl, ?_, ?_, rfl, rfl⟩
  · exact (packet_queue_bounded_fifo intOps admitAll exampleActions (exampleStart false) _
      rfl rfl).1
  · exact (packet_queue_bounded_fifo intOps admitAll exampleActions (exampleStart false) _
      rfl rfl).2.1

/-! ### The version string read at start-up -/

theorem cstr_replicate_zero (n : Nat) : cstr (List.replicate (n + 1) 0) = [] := by
  simp [cstr, List.replicate_succ]

theorem cstr_append_zeros (l : List Byte) (n : Nat) (h : NulFree l) :
    cstr (l ++ List.replicate (n + 1) 0) = l := by
  unfold cstr
  rw [List.takeWhile_append_of_pos]
  · rw [show List.takeWhile (fun b => b != 0) (List.replicate (n + 1) (0 : Byte)) = [] from
      cstr_replicate_zero n, List.append_nil]
  · intro b hb
    have hne : b ≠ 0 := fun h0 => h (h0 ▸ hb)
    simpa using hne

/-- What `BuildStaticReplyInfo` makes of `steam.inf`: the default when the file cannot be
opened or read; the empty string when the line has fewer than 13 bytes; and otherwise the
line without its first 13 bytes, cut at the first carriage return or newline. -/
theorem BuildStaticReplyInfo_game_version (h : StaticHost) (ri : reply_info_t) :
    (h.steam_inf = none → (BuildStaticReplyInfo h ri).game_version = default_game_version)
    ∧ (h.steam_inf = some none →
        (BuildStaticReplyInfo h ri).game_version = default_game_version)
    ∧ (∀ line, h.steam_inf = some (some line) → (cstr line).length ≤ 255 →
        ((cstr line).length < 13 → (BuildStaticReplyInfo h ri).game_version = [])
        ∧ (13 ≤ (cstr line).length →
            (BuildStaticReplyInfo h ri).game_version
              = ((cstr line).drop 13).takeWhile (fun b => b != 13 && b != 10))) := by
  refine ⟨?_, ?_, ?_⟩
  · intro h0
    unfold BuildStaticReplyInfo
    simp only [h0]
  · intro h0
    unfold BuildStaticReplyInfo
    simp only [h0]
  · intro line h0 hlen
    have hbuff : ((cstr line ++ List.replicate 256 0).take 256).drop 13
        = (cstr line).drop 13 ++ List.replicate (243 - ((cstr line).length - 13) ) 0 := by
      rw [List.take_append_eq_append_take, List.take_of_length_le (by omega),
        List.take_replicate, List.drop_append_eq_append_drop, List.drop_replicate]
      congr 2
      omega
    have hv : (BuildStaticReplyInfo h ri).game_version
        = (cstr (((cstr line ++ List.replicate 256 0).take 256).drop 13)).takeWhile
            (fun b => b != 13 && b != 10) := by
      unfold BuildStaticReplyInfo
      simp only [h0]
    rw [hv, hbuff]
    have hfree : NulFree ((cstr line).drop 13) :=
      fun h0 => NulFree_cstr line (List.mem_of_mem_drop h0)
    obtain ⟨k, hk⟩ : ∃ k, 243 - ((cstr line).length - 13) = k + 1 :=
      ⟨242 - ((cstr line).length - 13), by omega⟩
    rw [hk, cstr_append_zeros _ _ hfree]
    refine ⟨?_, fun _ => rfl⟩
    intro hshort
    rw [List.drop_of_length_le (by omega)]
    rfl

/-- C13 on the code: with a `steam.inf` whose first line is the four bytes "v=1" and a
newline, the version string is empty, not the default "2019.11.12". -/
theorem BuildStaticReplyInfo_short_first_line :
    exampleShortInf.steam_inf = some (some [118, 61, 49, 10])
      ∧ (BuildStaticReplyInfo exampleShortInf reply_info_zero).game_version = []
      ∧ default_game_version = [50, 48, 49, 57, 46, 49, 49, 46, 49, 50] := by
  refine ⟨rfl, ?_, rfl⟩
  exact ((BuildStaticReplyInfo_game_version exampleShortInf reply_info_zero).2.2
    [118, 61, 49, 10] rfl (by decide)).1 (by decide)

/-! ### Where the hook bridge runs -/

/-- The interception point, on any socket, neither enters the hook bridge nor sends. -/
theorem recvfrom_detour_no_hook {CM : Type} (on_game_socket : Bool) (trampoline : Trampoline)
    (buflen fromlen : Nat) (s : State CM) :
    (recvfrom_detour on_game_socket trampoline buflen fromlen s).2.hook_calls = s.hook_calls
      ∧ (recvfrom_detour on_game_socket trampoline buflen fromlen s).2.sent = s.sent := by
  unfold recvfrom_detour PopPacketFromQueue
  cases on_game_socket
  · simp only [Bool.not_false, if_true]
    cases trampoline with
    | none => exact ⟨rfl, rfl⟩
    | some recvfrom =>
      simp only []
      cases recvfrom buflen <;> exact ⟨rfl, rfl⟩
  · simp only [Bool.not_true, Bool.false_eq_true, if_false]
    cases s.threaded_socket_queue <;> exact ⟨rfl, rfl⟩

set_option maxRecDepth 100000 in
/-- C14 on the code: with a callback registered, one step of the receiver loop on an info
query enters the bridge and sends the reply the callback asked for (server name "X"), and
one step on a player query enters the bridge and sends the roster; neither datagram reaches
the queue, and no call of `recvfrom_detour`, whatever its arguments and the state, enters
the bridge. -/
theorem PacketReceiverThread_step_runs_hooks :
    (∃ s1 b, PacketReceiverThread.step intOps admitAll exampleEnvWithHook
          (some (fun _ => some exampleInfoQuery)) true (exampleStart true) = some s1
        ∧ (exampleStart true).hook_calls = 0 ∧ s1.hook_calls = 1
        ∧ s1.threaded_socket_queue = []
        ∧ s1.sent = [(exampleAddr, b)] ∧ (b.drop 4).take 4 = [73, 17, 88, 0])
    ∧ (∃ s1 b, PacketReceiverThread.step intOps admitAll exampleEnvWithHook
          (some (fun _ => some examplePlayerQuery)) true (exampleStart true) = some s1
        ∧ s1.hook_calls = 1 ∧ s1.threaded_socket_queue = []
        ∧ s1.sent = [(exampleAddr, b)] ∧ (b.drop 4).take 2 = [68, 2])
    ∧ (∀ (on_game_socket : Bool) (trampoline : Trampoline) (buflen fromlen : Nat)
        (s : State Unit),
        (recvfrom_detour on_game_socket trampoline buflen fromlen s).2.hook_calls
          = s.hook_calls) :=
  ⟨⟨_, _, rfl, rfl, rfl, rfl, rfl, rfl⟩, ⟨_, _, rfl, rfl, rfl, rfl, rfl⟩,
    fun g t b f s => (recvfrom_detour_no_hook g t b f s).1⟩

/-! ### The visible maximum of players -/

theorem rebuildAll_append {CM : Type} (a b : List Host) (s : State CM) :
    rebuildAll (a ++ b) s = rebuildAll b (rebuildAll a s) := by
  simp [rebuildAll, List.foldl_append]

/-- The rule by which one rebuild sets `max_clients`. -/
theorem BuildReplyInfo_max_clients {CM : Type} (host : Host) (s : State CM) :
    (BuildReplyInfo host s).reply_info.max_clients
      = match host.sv_visiblemaxplayers with
        | some v => if 0 < v ∧ v ≤ s.reply_info.max_clients then v else s.reply_info.max_clients
        | none => s.reply_info.max_clients := by
  show (if _ then _ else _) = _
  cases hv : host.sv_visiblemaxplayers with
  | none => simp
  | some v =>
    simp only []
    by_cases h1 : 0 < v ∧ v ≤ s.reply_info.max_clients
    · rw [if_pos h1, if_neg (by omega)]
    · rw [if_neg h1, if_pos (by omega)]

theorem BuildReplyInfo_max_clients_le {CM : Type} (host : Host) (s : State CM) :
    (BuildReplyInfo host s).reply_info.max_clients ≤ s.reply_info.max_clients := by
  rw [BuildReplyInfo_max_clients]
  cases host.sv_visiblemaxplayers with
  | none => exact le_refl _
  | some v =>
    simp only []
    split
    · rename_i h
      exact h.2
    · exact le_refl _

theorem rebuildAll_max_clients_le {CM : Type} (hosts : List Host) (s : State CM) :
    (rebuildAll hosts s).reply_info.max_clients ≤ s.reply_info.max_clients := by
  induction hosts generalizing s with
  | nil => exact le_refl _
  | cons host rest ih =>
    show (rebuildAll rest (BuildReplyInfo host s)).reply_info.max_clients ≤ _
    exact le_trans (ih _) (BuildReplyInfo_max_clients_le host s)

/-- C15: a rebuild sets `max_clients` to the visible-max-players value `v` when
`0 < v` and `v` is at most the previous `max_clients`, and leaves it as it was otherwise
(also when the setting is absent); so over every sequence of rebuilds `max_clients` never
increases, and whatever rebuilds follow a prefix of the sequence, the value stays at or
below what that prefix left. -/
theorem max_clients_never_increases {CM : Type} (host : Host) (hosts later : List Host)
    (s : State CM) :
    ((BuildReplyInfo host s).reply_info.max_clients
        = match host.sv_visiblemaxplayers with
          | some v =>
            if 0 < v ∧ v ≤ s.reply_info.max_clients then v else s.reply_info.max_clients
          | none => s.reply_info.max_clients)
      ∧ (rebuildAll hosts s).reply_info.max_clients ≤ s.reply_info.max_clients
      ∧ (rebuildAll (hosts ++ later) s).reply_info.max_clients
          ≤ (rebuildAll hosts s).reply_info.max_clients :=
  ⟨BuildReplyInfo_max_clients host s, rebuildAll_max_clients_le hosts s, by
    rw [rebuildAll_append]
    exact rebuildAll_max_clients_le later _⟩

/-- C15 on a server started with 16 slots: a rebuild with the setting at 8 lowers
`max_clients` to 8, and later rebuilds with the setting absent, at 0 or at 12 leave it
at 8. -/
theorem max_clients_never_increases_example :
    (exampleStart true).reply_info.max_clients = 16
      ∧ (rebuildAll [{ exampleHost with sv_visiblemaxplayers := some 8 }]
          (exampleStart true)).reply_info.max_clients = 8
      ∧ (rebuildAll
          ([{ exampleHost with sv_visiblemaxplayers := some 8 }] ++
            [exampleHost, { exampleHost with sv_visiblemaxplayers := some 0 },
             { exampleHost with sv_visiblemaxplayers := some 12 }])
          (exampleStart true)).reply_info.max_clients
        ≤ (rebuildAll [{ exampleHost with sv_visiblemaxplayers := some 8 }]
            (exampleStart true)).reply_info.max_clients
      ∧ (rebuildAll
          ([{ exampleHost with sv_visiblemaxplayers := some 8 }] ++
            [exampleHost, { exampleHost with sv_visiblemaxplayers := some 0 },
             { exampleHost with sv_visiblemaxplayers := some 12 }])
          (exampleStart true)).reply_info.max_clients = 8 :=
  ⟨rfl, rfl,
    (max_clients_never_increases exampleHost
      [{ exampleHost with sv_visiblemaxplayers := some 8 }]
      [exampleHost, { exampleHost with sv_visiblemaxplayers := some 0 },
        { exampleHost with sv_visiblemaxplayers := some 12 }] (exampleStart true)).2.2,
    rfl⟩

end netfilter
